import Mathlib

/-
  Verification development for the OpenAI OCR MCP server (src/ocr.ts).

  The TypeScript source is shallowly embedded: pure computations become Lean
  functions, the Node filesystem and the remote vision service become explicit
  environment records, and the stateful dispatcher becomes a fold over input
  lines threading an explicit server state.  Machine words of the SHA-256
  computation are natural numbers reduced modulo 2^32.
-/

set_option maxRecDepth 100000

namespace OcrMcp

/- ===================================================================
   Part A: SHA-256, UTF-8 and hex encoding.

   src/ocr.ts uses Node's crypto: createHash('sha256').update(text).digest('hex')
   on the extracted text (generateShortHash, lines 454-459).  We embed the
   full FIPS 180-4 SHA-256 so that the digest really is the cryptographic
   hash of the UTF-8 bytes of the text.
   =================================================================== -/

/-- Reduce a natural number modulo 2^32, the word size of SHA-256 arithmetic. -/
def w32 (n : Nat) : Nat := n % 4294967296

/-- Right rotation of a 32-bit word by n bits. -/
def rotr32 (n x : Nat) : Nat := w32 ((x >>> n) ||| (x <<< (32 - n)))

/-- Logical right shift of a 32-bit word. -/
def shr32 (n x : Nat) : Nat := x >>> n

/-- SHA-256 small sigma 0. -/
def ssig0 (x : Nat) : Nat := (rotr32 7 x) ^^^ (rotr32 18 x) ^^^ (shr32 3 x)

/-- SHA-256 small sigma 1. -/
def ssig1 (x : Nat) : Nat := (rotr32 17 x) ^^^ (rotr32 19 x) ^^^ (shr32 10 x)

/-- SHA-256 big sigma 0. -/
def bsig0 (x : Nat) : Nat := (rotr32 2 x) ^^^ (rotr32 13 x) ^^^ (rotr32 22 x)

/-- SHA-256 big sigma 1. -/
def bsig1 (x : Nat) : Nat := (rotr32 6 x) ^^^ (rotr32 11 x) ^^^ (rotr32 25 x)

/-- SHA-256 choice function. -/
def chF (x y z : Nat) : Nat := (x &&& y) ^^^ ((x ^^^ 4294967295) &&& z)

/-- SHA-256 majority function. -/
def majF (x y z : Nat) : Nat := (x &&& y) ^^^ (x &&& z) ^^^ (y &&& z)

/-- The 64 SHA-256 round constants of FIPS 180-4 (fractional parts of the
cube roots of the first 64 primes), written in decimal. -/
def sha256K : List Nat :=
  [1116352408, 1899447441, 3049323471, 3921009573, 961987163, 1508970993,
   2453635748, 2870763221, 3624381080, 310598401, 607225278, 1426881987,
   1925078388, 2162078206, 2614888103, 3248222580, 3835390401, 4022224774,
   264347078, 604807628, 770255983, 1249150122, 1555081692, 1996064986,
   2554220882, 2821834349, 2952996808, 3210313671, 3336571891, 3584528711,
   113926993, 338241895, 666307205, 773529912, 1294757372, 1396182291,
   1695183700, 1986661051, 2177026350, 2456956037, 2730485921, 2820302411,
   3259730800, 3345764771, 3516065817, 3600352804, 4094571909, 275423344,
   430227734, 506948616, 659060556, 883997877, 958139571, 1322822218,
   1537002063, 1747873779, 1955562222, 2024104815, 2227730452, 2361852424,
   2428436474, 2756734187, 3204031479, 3329325298]

/-- The eight SHA-256 initial hash values of FIPS 180-4, in decimal. -/
def sha256H0 : List Nat :=
  [1779033703, 3144134277, 1013904242, 2773480762,
   1359893119, 2600822924, 528734635, 1541459225]

/-- Working state of the SHA-256 compression function: eight 32-bit words. -/
structure H8 where
  a : Nat
  b : Nat
  c : Nat
  d : Nat
  e : Nat
  f : Nat
  g : Nat
  h : Nat
deriving DecidableEq

/-- One round of the SHA-256 compression function, consuming one schedule word
and one round constant. -/
def sha256Round (s : H8) (kw : Nat × Nat) : H8 :=
  let t1 := w32 (s.h + bsig1 s.e + chF s.e s.f s.g + kw.1 + kw.2)
  let t2 := w32 (bsig0 s.a + majF s.a s.b s.c)
  { a := w32 (t1 + t2), b := s.a, c := s.b, d := s.c,
    e := w32 (s.d + t1), f := s.e, g := s.f, h := s.g }

/-- Extend the 16 block words to the 64-entry message schedule (adds `fuel`
further words). -/
def extendW (w : List Nat) : Nat → List Nat
  | 0 => w
  | fuel + 1 =>
    let n := w.length
    let wt := w32 (ssig1 (w.getD (n - 2) 0) + w.getD (n - 7) 0 +
                   ssig0 (w.getD (n - 15) 0) + w.getD (n - 16) 0)
    extendW (w ++ [wt]) fuel

/-- Convert a list-of-eight view of the state into `H8`. -/
def h8OfList (l : List Nat) : H8 :=
  { a := l.getD 0 0, b := l.getD 1 0, c := l.getD 2 0, d := l.getD 3 0,
    e := l.getD 4 0, f := l.getD 5 0, g := l.getD 6 0, h := l.getD 7 0 }

/-- Convert the compression state back to a list of eight words. -/
def h8ToList (s : H8) : List Nat := [s.a, s.b, s.c, s.d, s.e, s.f, s.g, s.h]

/-- Compress one 512-bit block (given as 16 words) into the running hash. -/
def sha256Block (hs : List Nat) (block : List Nat) : List Nat :=
  let w := extendW block 48
  let s0 := h8OfList hs
  let s := (w.zip sha256K).foldl sha256Round s0
  (List.zip hs (h8ToList s)).map (fun p => w32 (p.1 + p.2))

/-- Read a big-endian 32-bit word from four bytes. -/
def word32OfBytes (b0 b1 b2 b3 : Nat) : Nat :=
  b0 * 16777216 + b1 * 65536 + b2 * 256 + b3

/-- Group a list of bytes into big-endian 32-bit words (length divisible by 4). -/
def bytesToWords : List Nat → List Nat
  | b0 :: b1 :: b2 :: b3 :: rest => word32OfBytes b0 b1 b2 b3 :: bytesToWords rest
  | _ => []

/-- Split a byte list into chunks of 64 bytes (fuel-based structural
recursion so that the kernel can evaluate it; the fuel is the list length,
which always suffices since each step drops 64 > 0 elements). -/
def chunks64F : Nat → List Nat → List (List Nat)
  | 0, _ => []
  | _, [] => []
  | fuel + 1, l => l.take 64 :: chunks64F fuel (l.drop 64)

/-- Split a byte list into chunks of 64 bytes. -/
def chunks64 (l : List Nat) : List (List Nat) := chunks64F l.length l

/-- Big-endian encoding of a natural number in `k` bytes. -/
def beBytes : Nat → Nat → List Nat
  | 0, _ => []
  | k + 1, n => beBytes k (n / 256) ++ [n % 256]

/-- FIPS 180-4 padding: append 0x80, zeros to 56 mod 64, then the 64-bit
big-endian bit length. -/
def sha256Pad (msg : List Nat) : List Nat :=
  let len := msg.length
  let zeros := (120 - (len + 1) % 64) % 64
  msg ++ [128] ++ List.replicate zeros 0 ++ beBytes 8 (len * 8)

/-- Full SHA-256 over a byte list, producing the eight-word digest. -/
def sha256Words (msg : List Nat) : List Nat :=
  (chunks64 (sha256Pad msg)).foldl (fun hs blk => sha256Block hs (bytesToWords blk)) sha256H0

/-- Lowercase hex digit for a value below 16. -/
def hexDigit (n : Nat) : Char :=
  if n < 10 then Char.ofNat (48 + n) else Char.ofNat (87 + n)

/-- Eight lowercase hex characters of one 32-bit word, most significant first. -/
def hexWord32 (n : Nat) : List Char :=
  [hexDigit (n / 268435456 % 16), hexDigit (n / 16777216 % 16),
   hexDigit (n / 1048576 % 16), hexDigit (n / 65536 % 16),
   hexDigit (n / 4096 % 16), hexDigit (n / 256 % 16),
   hexDigit (n / 16 % 16), hexDigit (n % 16)]

/-- Hex characters of the SHA-256 digest of a byte list (64 lowercase hex
chars), as produced by Node's digest('hex'). -/
def sha256HexChars (msg : List Nat) : List Char :=
  (sha256Words msg).flatMap hexWord32

/-- Hex rendering of the SHA-256 digest as a string. -/
def sha256Hex (msg : List Nat) : String :=
  String.mk (sha256HexChars msg)

/-- UTF-8 encoding of one Unicode scalar value, as Node's Buffer.from(text)
encodes strings. -/
def utf8Char (c : Char) : List Nat :=
  let n := c.toNat
  if n < 128 then [n]
  else if n < 2048 then [192 + n / 64, 128 + n % 64]
  else if n < 65536 then [224 + n / 4096, 128 + n / 64 % 64, 128 + n % 64]
  else [240 + n / 262144, 128 + n / 4096 % 64, 128 + n / 64 % 64, 128 + n % 64]

/-- UTF-8 bytes of a string. -/
def utf8Bytes (s : String) : List Nat := s.toList.flatMap utf8Char

/-- Embeds generateShortHash (src/ocr.ts lines 454-459): the first 8 hex
characters of the SHA-256 digest of the text.  hash.substring(0, 8) takes the
first eight UTF-16 units; the hex alphabet is ASCII, so this is the first
eight characters. -/
def generateShortHash (text : String) : String :=
  String.mk ((sha256HexChars (utf8Bytes text)).take 8)

/- ===================================================================
   Part B: string helpers, a JSON value model, Node path functions,
   the filesystem and conversation-state model, and the file store.

   String operations are implemented over the underlying character lists so
   that the kernel can evaluate them on concrete inputs.
   =================================================================== -/

/-- Does the second list start with the first? -/
def listStarts : List Char → List Char → Bool
  | [], _ => true
  | _ :: _, [] => false
  | p :: ps, c :: cs => (p == c) && listStarts ps cs

/-- String startsWith, via character lists. -/
def strStarts (pat s : String) : Bool := listStarts pat.data s.data

/-- String endsWith, via reversed character lists. -/
def strEnds (pat s : String) : Bool := listStarts pat.data.reverse s.data.reverse

/-- Lowercase every character (ASCII case mapping, as Char.toLower). -/
def strLower (s : String) : String := String.mk (s.data.map Char.toLower)

/-- Character count of a string. -/
def strLen (s : String) : Nat := s.data.length

/-- Strict lexicographic order on character lists by Unicode code point. -/
def lexLtChars : List Char → List Char → Bool
  | [], [] => false
  | [], _ :: _ => true
  | _ :: _, [] => false
  | a :: as, b :: bs => a.toNat < b.toNat || (a == b && lexLtChars as bs)

/-- Lexicographic less-or-equal on strings by Unicode code point, used to
state which directory entry is the lexicographically last. -/
def lexLe (a b : String) : Bool := lexLtChars a.data b.data || a == b

/-- A JSON value, the shape of JSON-RPC params and results. -/
inductive Json
  | null
  | bool (b : Bool)
  | num (n : Int)
  | str (s : String)
  | arr (xs : List Json)
  | obj (fields : List (String × Json))

/-- Property access j.k: a field lookup on objects, undefined (none) on
everything else, as in JavaScript member access on non-null values. -/
def jGet (j : Json) (k : String) : Option Json :=
  match j with
  | .obj fs => fs.lookup k
  | _ => none

/-- Optional-chaining access o?.k. -/
def jGetO (o : Option Json) (k : String) : Option Json :=
  match o with
  | none => none
  | some j => jGet j k

/-- JavaScript truthiness of a JSON value. -/
def jTruthy : Json → Bool
  | .null => false
  | .bool b => b
  | .num n => n != 0
  | .str s => s != ""
  | .arr _ => true
  | .obj _ => true

/-- Truthiness of a possibly-undefined value (undefined is falsy). -/
def jTruthyO : Option Json → Bool
  | none => false
  | some j => jTruthy j

/-- Is the value a string (typeof x === 'string')? -/
def jIsStr : Option Json → Bool
  | some (.str _) => true
  | _ => false

/-- JSON string escaping for the stringify model (the characters exercised by
this program: quote, backslash and common control characters). -/
def jsonEscChar (c : Char) : List Char :=
  if c = '"' then ['\\', '"']
  else if c = '\\' then ['\\', '\\']
  else if c = '\n' then ['\\', 'n']
  else if c = '\t' then ['\\', 't']
  else if c = '\r' then ['\\', 'r']
  else [c]

/-- Escaped, quoted JSON string literal. -/
def jsonQuote (s : String) : String :=
  "\"" ++ String.mk (s.data.flatMap jsonEscChar) ++ "\""

/-- Compact JSON.stringify model (no spacing), used where the source calls
JSON.stringify(x) with one argument. -/
def jsonStringify : Json → String
  | .null => "null"
  | .bool true => "true"
  | .bool false => "false"
  | .num n => toString n
  | .str s => jsonQuote s
  | .arr xs => "[" ++ String.intercalate "," (xs.attach.map (fun x => jsonStringify x.1)) ++ "]"
  | .obj fs => "\x7b" ++ String.intercalate ","
      (fs.attach.map (fun f => jsonQuote f.1.1 ++ ":" ++ jsonStringify f.1.2)) ++ "\x7d"
decreasing_by
  · have h := List.sizeOf_lt_of_mem x.2
    simp only [Json.arr.sizeOf_spec]
    omega
  · rcases f with ⟨⟨k, v⟩, hf⟩
    have h := List.sizeOf_lt_of_mem hf
    simp only [Json.obj.sizeOf_spec, Prod.mk.sizeOf_spec] at h ⊢
    omega

/-- Template-literal rendering of a possibly-undefined value, as when the
source interpolates a value into an error message. -/
def jsTemplate : Option Json → String
  | none => "undefined"
  | some .null => "null"
  | some (.bool true) => "true"
  | some (.bool false) => "false"
  | some (.num n) => toString n
  | some (.str s) => s
  | some (.arr _) => ""
  | some (.obj _) => "[object Object]"

/-- Stringify of a possibly-undefined value (JSON.stringify(undefined) is
undefined, which the source then interpolates as "undefined"). -/
def jsonStringifyO : Option Json → String
  | none => "undefined"
  | some j => jsonStringify j

/-- Last index of a character in a list, if any. -/
def lastIdxOf (c : Char) (l : List Char) : Option Nat :=
  let idx := l.reverse.findIdx? (fun x => x == c)
  match idx with
  | none => none
  | some i => some (l.length - 1 - i)

/-- Strip trailing slashes from a character list, keeping a lone slash. -/
def stripTrailSlash (l : List Char) : List Char :=
  let r := l.reverse.dropWhile (fun c => c == '/')
  if r = [] then (if l = [] then [] else ['/']) else r.reverse

/-- Node path.dirname for POSIX paths: the part before the final slash,
"." when there is no slash and "/" for names directly under the root. -/
def nodeDirname (p : String) : String :=
  let cs := stripTrailSlash p.data
  match lastIdxOf '/' cs with
  | none => "."
  | some 0 => "/"
  | some i => String.mk (cs.take i)

/-- Node path.basename for POSIX paths: the final path component. -/
def nodeBasename (p : String) : String :=
  let cs := stripTrailSlash p.data
  match lastIdxOf '/' cs with
  | none => String.mk cs
  | some i => String.mk (cs.drop (i + 1))

/-- Node path.extname: from the last dot of the final component to its end;
empty when there is no dot, when the only dot leads the component (hidden
files) or when the component is "." or "..". -/
def nodeExtname (p : String) : String :=
  let b := (nodeBasename p).data
  if b = ['.'] ∨ b = ['.', '.'] then ""
  else
    match lastIdxOf '.' b with
    | none => ""
    | some 0 => ""
    | some i => String.mk (b.drop i)

/-- Node path.basename(p, ext): the final component with the suffix ext
removed when it ends with ext and is not ext itself. -/
def nodeBasenameExt (p ext : String) : String :=
  let b := nodeBasename p
  if ext != "" && strEnds ext b && b != ext then
    String.mk (b.data.take (b.data.length - ext.data.length))
  else b

/-- The source's basename-without-extension idiom:
path.basename(p, path.extname(p)). -/
def baseNameWithoutExt (p : String) : String := nodeBasenameExt p (nodeExtname p)

/-- Node path.join of a directory and an entry name, for the shapes this
program produces (no ".." segments; a "." directory collapses away, and a
trailing slash is not doubled). -/
def posixJoin (dir name : String) : String :=
  if dir = "" then name
  else if dir = "." then name
  else if strEnds "/" dir then dir ++ name
  else dir ++ "/" ++ name

/-- Node path.resolve against the process working directory, for absolute and
relative inputs without ".." segments. -/
def pathResolve (cwd p : String) : String :=
  if strStarts "/" p then p else posixJoin cwd p

/-- The filesystem contents: a map from path to file text.  none means the
path does not exist (fs.existsSync false, reads throw). -/
def FileMap := String → Option String

/-- Overwrite (or create) one file, as fs.writeFileSync. -/
def fsWrite (fs : FileMap) (p content : String) : FileMap :=
  fun q => if q = p then some content else fs q

/-- Append to one file, creating it when missing, as fs.appendFileSync. -/
def fsAppend (fs : FileMap) (p s : String) : FileMap :=
  fsWrite fs p (((fs p).getD "") ++ s)

/-- Embeds the ConversationState record (src/ocr.ts lines 69-81). -/
structure ConvState where
  lastOcrResult : Option String := none
  lastImagePath : Option String := none
  llmResponses : List (String × String) := []
deriving DecidableEq

/-- One tool-result content block. -/
structure ContentItem where
  type : String
  text : String
deriving DecidableEq

/-- An MCP tool result; isError is optional in the source and set only in the
error branches, which the Bool (default false) mirrors. -/
structure McpToolResult where
  content : List ContentItem
  isError : Bool := false
deriving DecidableEq

/-- A text content block. -/
def mkContent (t : String) : ContentItem := { type := "text", text := t }

/-- The soft error result both tools return from their catch blocks. -/
def softError (msg : String) : McpToolResult :=
  { content := [mkContent ("Error: " ++ msg)], isError := true }

/-- The environment of one run: working directory, image-file metadata,
write failures, directory listings, the remote vision service outcome, the
clock and the API-key state.  These model the external collaborators
(Node fs/process/Date, curl and the OpenAI endpoint). -/
inductive RemoteOutcome
  | transportFail (exitCode : Int) (stderrText : String)
  | respParseFail (msg : String)
  | apiError (msg : String)
  | success (content : Option String)

/-- Metadata and readability of a path as seen by fs.existsSync, fs.statSync
and the read probes.  readErr is the Node error message surfaced when a read
fails. -/
structure FileInfo where
  present : Bool
  isFile : Bool
  size : Nat
  readProbeOk : Bool
  readFullOk : Bool
  readErr : String

/-- External collaborators of one processing step.  writeFails p = some m
means a write to p throws an error whose message is m.  dirList models
fs.readdirSync: its order is whatever the operating system returns, which is
not sorted in general.  nowIso is what Date().toISOString() returns.  apiKeyOk
models that getOpenAIApiKey found a key passing validateApiKey. -/
structure Env where
  cwd : String
  stat : String → FileInfo
  writeFails : String → Option String
  dirList : String → List String
  remote : RemoteOutcome
  nowIso : String
  apiKeyOk : Bool

/-- The output path of the content-addressed store (saveExtractedText,
src/ocr.ts lines 464-473): {dir}/{baseName}-{digest}.txt where the digest is
generateShortHash of the extracted text. -/
def savedTxtPath (imagePath text : String) : String :=
  posixJoin (nodeDirname imagePath)
    (baseNameWithoutExt imagePath ++ "-" ++ generateShortHash text ++ ".txt")

/-- The fixed header the store writes before the extracted text. -/
def ocrHeader : String := "OCR EXTRACTED TEXT:\n==================\n"

/-- Embeds saveExtractedText (src/ocr.ts lines 464-484): writes the header
and text to the derived path, throwing (none) when the write fails; the
thrown message is "Failed to save text file: " plus the underlying error. -/
def saveExtractedText (env : Env) (fs : FileMap) (imagePath text : String) :
    (String × FileMap) ⊕ String :=
  let p := savedTxtPath imagePath text
  match env.writeFails p with
  | some m => .inr ("Failed to save text file: " ++ m)
  | none => .inl (p, fsWrite fs p (ocrHeader ++ text ++ "\n"))

/-- The analysis section appended by both appendLlmResponseToFile and
handleAppendAnalysis: separator, bracketed ISO timestamp, text, newline. -/
def analysisSection (nowIso analysis : String) : String :=
  "\n\nLLM ANALYSIS:\n=============\n[" ++ nowIso ++ "]\n" ++ analysis ++ "\n"

/-- Embeds handleAppendAnalysis (src/ocr.ts lines 1292-1329).  The path is
none when the caller passed no text_file_path (fs.existsSync(undefined) is
false, so the not-found branch fires with "undefined" interpolated). -/
def handleAppendAnalysis (env : Env) (fs : FileMap) (pathO : Option String)
    (analysis : String) : McpToolResult × FileMap :=
  match pathO with
  | none => (softError "Text file not found: undefined", fs)
  | some p =>
    match fs p with
    | none => (softError ("Text file not found: " ++ p), fs)
    | some old =>
      if !(strEnds ".txt" p) then (softError "File must be a .txt file", fs)
      else
        match env.writeFails p with
        | some m => (softError m, fs)
        | none =>
          ({ content := [mkContent ("Analysis has been appended to: " ++ p)] },
           fsWrite fs p (old ++ analysisSection env.nowIso analysis))

/-- Embeds appendLlmResponseToFile (src/ocr.ts lines 489-503): formats the
response (strings stay as they are, other values via JSON.stringify with
two-space indentation, which for the values the claims exercise is the
compact rendering model below) and appends the analysis section; errors are
swallowed. -/
def formatLlmResponse (response : Option Json) : String :=
  match response with
  | some (.str s) => s
  | r => jsonStringifyO r

/-- Append the formatted LLM response section to a file, swallowing write
errors, as appendLlmResponseToFile does. -/
def appendLlmResponseToFile (env : Env) (fs : FileMap) (txtPath : String)
    (response : Option Json) : FileMap :=
  match env.writeFails txtPath with
  | some _ => fs
  | none => fsAppend fs txtPath (analysisSection env.nowIso (formatLlmResponse response))

/-- Embeds logLlmResponse (src/ocr.ts lines 508-567): records the response in
the conversation state, then, when a previous image path is known, lists its
directory, filters entries to "{baseName}-" prefixed ".txt" files and appends
the response to the positionally last match of the listing; a missing file or
any filesystem error is caught and leaves the filesystem unchanged. -/
def logLlmResponse (env : Env) (fs : FileMap) (st : ConvState)
    (response : Option Json) : ConvState × FileMap :=
  let st' := { st with
    llmResponses := st.llmResponses ++ [(env.nowIso, jsonStringifyO response)] }
  match st.lastImagePath with
  | none => (st', fs)
  | some p =>
    let dir := nodeDirname p
    let base := baseNameWithoutExt p
    let matching := (env.dirList dir).filter
      (fun f => strStarts (base ++ "-") f && strEnds ".txt" f)
    match matching.getLast? with
    | none => (st', fs)
    | some f =>
      let txtPath := posixJoin dir f
      match fs txtPath with
      | none => (st', fs)
      | some _ => (st', appendLlmResponseToFile env fs txtPath response)

/- ===================================================================
   Part C: the response splitter, the extraction pipeline, the tool-call
   handlers and the line dispatcher.
   =================================================================== -/

/-- Does the text start (case-insensitively, by ASCII lowering as the /i flag
folds these letters) with one of the four analysis headings?  This is the
lookahead of the split regex at src/ocr.ts line 754. -/
def ciStarts : List Char → List Char → Bool
  | [], _ => true
  | _ :: _, [] => false
  | p :: ps, c :: cs => (p == c.toLower) && ciStarts ps cs

/-- The heading alternation Analysis:|Interpretation:|Summary:|Understanding:
matched case-insensitively. -/
def isHeading (s : List Char) : Bool :=
  ciStarts "analysis:".data s || ciStarts "interpretation:".data s ||
  ciStarts "summary:".data s || ciStarts "understanding:".data s

/-- Prepend a character to the first part of a part list. -/
def consHead (c : Char) : List (List Char) → List (List Char)
  | [] => [[c]]
  | p :: ps => (c :: p) :: ps

/-- Embeds fullResponse.split of the regex at src/ocr.ts line 754: the scan
cuts at every non-overlapping occurrence of a two-newline separator whose
lookahead is a heading, consuming the separator; on a failed match the scan
advances one character. -/
def splitParts : List Char → List (List Char)
  | [] => [[]]
  | [c] => [[c]]
  | c1 :: c2 :: rest =>
    if (c1 == '\n') && (c2 == '\n') && isHeading rest then [] :: splitParts rest
    else consHead c1 (splitParts (c2 :: rest))

/-- Is there a blank-line-preceded heading anywhere in the text? -/
def hasBoundary : List Char → Bool
  | [] => false
  | [_] => false
  | c1 :: c2 :: rest =>
    ((c1 == '\n') && (c2 == '\n') && isHeading rest) || hasBoundary (c2 :: rest)

/-- parts[0] of the split, at the character-list level. -/
def extractedChars (l : List Char) : List Char := (splitParts l).headD []

/-- Array.prototype.join with the two-newline separator. -/
def joinSep : List (List Char) → List Char
  | [] => []
  | [p] => p
  | p :: ps => p ++ '\n' :: '\n' :: joinSep ps

/-- parts.slice(1).join of two newlines, at the character-list level. -/
def analysisChars (l : List Char) : List Char :=
  match splitParts l with
  | [] => []
  | [_] => []
  | _ :: rest => joinSep rest

/-- parts[0] of the split: the extracted text (src/ocr.ts line 755). -/
def extractedOf (full : String) : String :=
  String.mk (extractedChars full.data)

/-- parts.slice(1).join of two newlines when the split produced more than one
part, else the empty string: the analysis text (src/ocr.ts line 756). -/
def analysisOf (full : String) : String :=
  String.mk (analysisChars full.data)

/-- The JSON-RPC id of a request: a number, a string, or null; null also
stands for an absent id. -/
inductive RId
  | num (n : Int)
  | str (s : String)
  | null
deriving DecidableEq

/-- JavaScript falsiness of an id value (null, 0 and the empty string). -/
def idFalsy : RId → Bool
  | .num n => n == 0
  | .str s => s == ""
  | .null => true

/-- Embeds the id field written by sendError (src/ocr.ts line 421):
id || 'error' replaces a falsy id with the string "error". -/
def sendErrorId (id : RId) : RId := if idFalsy id then .str "error" else id

/-- A JSON-RPC reply written to stdout: a success result or an error. -/
inductive Reply
  | success (id : RId) (result : Json)
  | error (id : RId) (code : Int) (message : String)

/-- Build the error reply sendError produces (with the id substitution). -/
def mkError (id : RId) (code : Int) (message : String) : Reply :=
  .error (sendErrorId id) code message

/-- Serialize a tool result as the response payload: the content array, plus
an isError field exactly when the source set one. -/
def toolResultJson (r : McpToolResult) : Json :=
  Json.obj
    ([("content", Json.arr (r.content.map
        (fun c => Json.obj [("type", .str c.type), ("text", .str c.text)])))] ++
     (if r.isError then [("isError", Json.bool true)] else []))

/-- Outcome of one extractTextFromImage run: either a resolved tool result
(the soft-error or success McpToolResult the caller's sendResponse receives)
or a rejected promise carrying the rejection message.  The returned Promise
is not awaited inside the try block (src/ocr.ts line 682: return new
Promise(...)), so rejections bypass the catch at line 804 and escape to the
caller; only synchronous throws before the Promise is built become soft
errors. -/
structure ExtractOut where
  outcome : McpToolResult ⊕ String
  fs : FileMap
  st : ConvState
  remoteCalled : Bool

/-- The allowed image extensions (src/ocr.ts line 184). -/
def allowedExtensions : List String := [".jpg", ".jpeg", ".png", ".gif", ".webp"]

/-- MAX_FILE_SIZE: 5 * 1024 * 1024 bytes (src/ocr.ts line 183). -/
def maxFileSize : Nat := 5242880

/-- Placeholder for the display of (size / 1MiB).toFixed(2) in the too-large
message.  The exact IEEE-754 rendering is not modelled; no claim depends on
it.  We show hundredths by integer arithmetic. -/
def renderMB (size : Nat) : String :=
  toString (size * 100 / 1048576 / 100) ++ "." ++ toString (size * 100 / 1048576 % 100)

/-- The synchronous validation phase of extractTextFromImage (src/ocr.ts
lines 578-673, in source order): API key, argument presence, image_path
presence, path resolution, existence, regular-file and size checks,
extension allow-list, 1 KiB read probe and full read.  Returns the thrown
error message (which the catch at line 804 will wrap as a soft error) or the
resolved absolute image path. -/
def validateImage (env : Env) (args : Option Json) : String ⊕ String :=
  if !env.apiKeyOk then
    .inl "OpenAI API key is not available. Please set the environment variable."
  else if !(jTruthyO args) then
    .inl "Arguments are required but were undefined"
  else if !(jTruthyO (jGetO args "image_path")) then
    .inl "image_path is required but was missing"
  else
    match jGetO args "image_path" with
    | some (.str ip) =>
      let imagePath := pathResolve env.cwd ip
      let info := env.stat imagePath
      if !info.present then
        .inl ("File access error: File not found at path: " ++ imagePath)
      else if !info.isFile then
        .inl ("File stats error: Not a file: " ++ imagePath)
      else if maxFileSize < info.size then
        .inl ("File stats error: File too large: " ++ renderMB info.size ++ "MB (max: 5MB)")
      else
        let ext := strLower (nodeExtname imagePath)
        if !(allowedExtensions.contains ext) then
          .inl ("Invalid file type: " ++ ext ++ ". Allowed types: .jpg, .jpeg, .png, .gif, .webp")
        else if !info.readProbeOk then
          .inl ("File read error: " ++ info.readErr)
        else if !info.readFullOk then
          .inl ("Failed to read image file: " ++ info.readErr)
        else .inr imagePath
    | _ =>
      -- image_path is truthy but not a string: path.resolve throws a
      -- TypeError (Node-internal text, not modelled verbatim), which the
      -- catch turns into a soft error.
      .inl "The path argument must be of type string"

/-- The completion text taken from the remote reply: choices[0].message
.content || "No text extracted" (src/ocr.ts line 751); both a missing and an
empty content are falsy and substituted. -/
def completionText (contentO : Option String) : String :=
  match contentO with
  | none => "No text extracted"
  | some c => if c = "" then "No text extracted" else c

/-- The Promise executor of extractTextFromImage (src/ocr.ts lines 682-803):
curl transport failure, reply parse failure and service-reported errors
reject; a successful reply is split into text and analysis, the conversation
state updated (lines 760-762), the text saved and a non-empty analysis
appended via handleAppendAnalysis (failures of the append are logged only);
a save failure still resolves with a warning block and no isError flag. -/
def remotePhase (env : Env) (fs : FileMap) (st : ConvState) (imagePath : String) :
    ExtractOut :=
  match env.remote with
  | .transportFail code errOut =>
    { outcome := .inr ("curl process exited with code " ++ toString code ++ ": " ++ errOut),
      fs := fs, st := st, remoteCalled := true }
  | .respParseFail m =>
    { outcome := .inr ("Failed to parse OpenAI response: " ++ m),
      fs := fs, st := st, remoteCalled := true }
  | .apiError m =>
    { outcome := .inr ("OpenAI API error: " ++ m),
      fs := fs, st := st, remoteCalled := true }
  | .success contentO =>
    let fullResponse := completionText contentO
    let extractedText := extractedOf fullResponse
    let analysis := analysisOf fullResponse
    let st' := { st with lastOcrResult := some extractedText,
                         lastImagePath := some imagePath }
    match saveExtractedText env fs imagePath extractedText with
    | .inr saveMsg =>
      { outcome := .inl { content :=
          [mkContent extractedText,
           mkContent ("\n\nWarning: Failed to save text file: " ++ saveMsg)] },
        fs := fs, st := st', remoteCalled := true }
    | .inl (txtPath, fs1) =>
      let fs2 := if analysis != "" then
          (handleAppendAnalysis env fs1 (some txtPath) analysis).2
        else fs1
      { outcome := .inl { content :=
          [mkContent extractedText,
           mkContent ("\n\nText has been saved to: " ++ txtPath)] },
        fs := fs2, st := st', remoteCalled := true }

/-- Embeds extractTextFromImage (src/ocr.ts lines 576-813).  Synchronous
validation failures are caught at line 804 and become soft error results
(isError true).  From the curl call on, failures reject the Promise and,
because the Promise is returned without await (line 682), escape the
function to its caller. -/
def extractTextFromImage (env : Env) (fs : FileMap) (st : ConvState)
    (args : Option Json) : ExtractOut :=
  match validateImage env args with
  | .inl msg =>
    { outcome := .inl (softError msg), fs := fs, st := st, remoteCalled := false }
  | .inr imagePath => remotePhase env fs st imagePath

/-- String field of an object-valued argument, none when absent or not a
string (non-string values of these fields are outside the modelled input
space; the TypeScript declarations type them as strings). -/
def jStrField (o : Option Json) (k : String) : Option String :=
  match jGetO o k with
  | some (.str s) => some s
  | _ => none

/-- Embeds handleCallTool (src/ocr.ts lines 899-929): the callTool dialect.
Falsy params give invalid-params; the extraction tool's rejections are caught
here and turned into a protocol error with code -32000; append_analysis never
rejects; any other tool name gives -32601. -/
def handleCallTool (env : Env) (fs : FileMap) (st : ConvState) (id : RId)
    (params : Option Json) : List Reply × FileMap × ConvState :=
  if !(jTruthyO params) then ([mkError id (-32602) "Invalid params"], fs, st)
  else
    let nameO := jGetO params "name"
    let argsO := jGetO params "arguments"
    match nameO with
    | some (.str "extract_text_from_image") =>
      let r := extractTextFromImage env fs st argsO
      match r.outcome with
      | .inl result => ([Reply.success id (toolResultJson result)], r.fs, r.st)
      | .inr msg => ([mkError id (-32000) ("Error executing tool: " ++ msg)], r.fs, r.st)
    | some (.str "append_analysis") =>
      match argsO with
      | none =>
        -- destructuring undefined throws inside handleAppendAnalysis's try,
        -- which its own catch converts to a soft error result.
        ([Reply.success id (toolResultJson (softError "Cannot destructure property text_file_path of args as it is undefined."))], fs, st)
      | some _ =>
        let (result, fs') := handleAppendAnalysis env fs (jStrField argsO "text_file_path")
          ((jStrField argsO "analysis").getD "undefined")
        ([Reply.success id (toolResultJson result)], fs', st)
    | other => ([mkError id (-32601) ("Tool not found: " ++ jsTemplate other)], fs, st)

/-- Embeds the shape sniffing of handleToolsCall (src/ocr.ts lines 1089-1129):
the five cases in source order, first match wins, producing the tool name and
image path values (either may stay undefined). -/
def normalizeToolsCall (p : Json) : Option Json × Option Json :=
  let nameJ := jGet p "name"
  let paramsJ := jGet p "params"
  let argsJ := jGet p "arguments"
  match p with
  | .str _ => (some (.str "extract_text_from_image"), some p)
  | _ =>
    if jTruthyO nameJ && jIsStr paramsJ then (nameJ, paramsJ)
    else if jTruthyO nameJ && jTruthyO paramsJ && jTruthyO (jGetO paramsJ "image_path") then
      (nameJ, jGetO paramsJ "image_path")
    else if jTruthyO (jGet p "image_path") then
      (some (.str "extract_text_from_image"), jGet p "image_path")
    else if jTruthyO nameJ && jTruthyO argsJ then
      match argsJ with
      | some (.str s) => (nameJ, some (.str s))
      | _ =>
        if jTruthyO (jGetO argsJ "image_path") then (nameJ, jGetO argsJ "image_path")
        else (nameJ, none)
    else (none, none)

/-- Embeds handleToolsCall (src/ocr.ts lines 1078-1159): the tools/call
dialect.  After normalization, a missing tool name or missing image path give
invalid-params (-32602); only the extraction tool is dispatched, its
rejections becoming protocol error -32000; every other resolved name gives
-32601. -/
def handleToolsCall (env : Env) (fs : FileMap) (st : ConvState) (id : RId)
    (params : Option Json) : List Reply × FileMap × ConvState :=
  match params with
  | none => ([mkError id (-32602) "Invalid params: params is undefined"], fs, st)
  | some p =>
    if !(jTruthy p) then ([mkError id (-32602) "Invalid params: params is undefined"], fs, st)
    else
      let (toolNameO, imagePathO) := normalizeToolsCall p
      if !(jTruthyO toolNameO) then
        ([mkError id (-32602) ("Invalid params: tool name could not be determined from params: " ++ jsonStringify p)], fs, st)
      else if !(jTruthyO imagePathO) then
        ([mkError id (-32602) "Invalid params: Please provide a path to a local image file as a simple string parameter"], fs, st)
      else
        match toolNameO with
        | some (.str "extract_text_from_image") =>
          let toolArgs := Json.obj [("image_path", imagePathO.getD Json.null)]
          let r := extractTextFromImage env fs st (some toolArgs)
          match r.outcome with
          | .inl result => ([Reply.success id (toolResultJson result)], r.fs, r.st)
          | .inr msg => ([mkError id (-32000) ("Error executing tool: " ++ msg)], r.fs, r.st)
        | other => ([mkError id (-32601) ("Tool not found: " ++ jsTemplate other)], fs, st)

/-- The OCR tool descriptor (src/ocr.ts lines 315-328) as response JSON. -/
def ocrToolJson : Json :=
  Json.obj
    [("name", .str "extract_text_from_image"),
     ("description", .str "Extract text from images using OpenAI's vision capabilities. Simply provide the full path to a local image file."),
     ("parameters", Json.obj
       [("type", .str "object"),
        ("properties", Json.obj
          [("image_path", Json.obj
            [("type", .str "string"),
             ("description", .str "Full path to a local image file (e.g., /Users/username/Pictures/image.jpg)")])]),
        ("required", Json.arr [.str "image_path"])])]

/-- The append-analysis tool descriptor (src/ocr.ts lines 331-348). -/
def appendToolJson : Json :=
  Json.obj
    [("name", .str "append_analysis"),
     ("description", .str "Append LLM analysis to an OCR text file. This tool is used to add AI commentary to existing OCR results."),
     ("parameters", Json.obj
       [("type", .str "object"),
        ("properties", Json.obj
          [("text_file_path", Json.obj
            [("type", .str "string"),
             ("description", .str "Path to the OCR text file to append analysis to")]),
           ("analysis", Json.obj
            [("type", .str "string"),
             ("description", .str "The LLM's analysis to append to the file")])]),
        ("required", Json.arr [.str "text_file_path", .str "analysis"])])]

/-- Server identity (src/ocr.ts lines 185-187). -/
def serverInfoJson : Json :=
  Json.obj [("name", .str "openai-ocr-service"), ("version", .str "1.0.0")]

/-- One capability entry: description and parameters of a descriptor. -/
def capabilityOf (tool : Json) : Json :=
  Json.obj [("description", (jGet tool "description").getD .null),
            ("parameters", (jGet tool "parameters").getD .null)]

/-- The initialize result (handleInitialize, src/ocr.ts lines 842-867),
with the stored client info echoed last when present. -/
def initializeResult (clientInfo : Option Json) : Json :=
  Json.obj
    ([("protocolVersion", .str "2024-11-05"),
      ("serverInfo", serverInfoJson),
      ("capabilities", Json.obj
        [("tools", Json.obj
          [("extract_text_from_image", capabilityOf ocrToolJson),
           ("append_analysis", capabilityOf appendToolJson)])])] ++
     (match clientInfo with
      | some ci => [("clientInfo", ci)]
      | none => []))

/-- The ListOfferings result (handleListOfferings, src/ocr.ts lines 873-894). -/
def listOfferingsResult (clientInfo : Option Json) : Json :=
  Json.obj
    ([("protocolVersion", .str "2024-11-05"),
      ("serverInfo", serverInfoJson),
      ("offerings", Json.obj [("tools", Json.arr [ocrToolJson, appendToolJson])])] ++
     (match clientInfo with
      | some ci => [("clientInfo", ci)]
      | none => []))

/-- Input/output schemas of the tools/list entry for the extraction tool
(handleToolsList, src/ocr.ts lines 995-1029). -/
def toolsListOcrJson : Json :=
  Json.obj
    [("name", .str "extract_text_from_image"),
     ("description", .str "Extract text from images using OpenAI's vision capabilities. Simply provide the full path to a local image file."),
     ("inputSchema", Json.obj
       [("type", .str "object"),
        ("properties", Json.obj
          [("image_path", Json.obj
            [("type", .str "string"),
             ("description", .str "Full path to a local image file (e.g., /Users/username/Pictures/image.jpg)")])]),
        ("required", Json.arr [.str "image_path"])]),
     ("outputSchema", Json.obj
       [("type", .str "object"),
        ("properties", Json.obj
          [("content", Json.obj
            [("type", .str "array"),
             ("items", Json.obj
               [("type", .str "object"),
                ("properties", Json.obj
                  [("type", Json.obj
                    [("type", .str "string"),
                     ("description", .str "Type of content (text)")]),
                   ("text", Json.obj
                    [("type", .str "string"),
                     ("description", .str "Extracted text from the image")])])])])])])]

/-- The tools/list entry for the append-analysis tool (src/ocr.ts lines
1030-1068). -/
def toolsListAppendJson : Json :=
  Json.obj
    [("name", .str "append_analysis"),
     ("description", .str "Append LLM analysis to an OCR text file. This tool is used to add AI commentary to existing OCR results."),
     ("inputSchema", Json.obj
       [("type", .str "object"),
        ("properties", Json.obj
          [("text_file_path", Json.obj
            [("type", .str "string"),
             ("description", .str "Path to the OCR text file to append analysis to")]),
           ("analysis", Json.obj
            [("type", .str "string"),
             ("description", .str "The LLM's analysis to append to the file")])]),
        ("required", Json.arr [.str "text_file_path", .str "analysis"])]),
     ("outputSchema", Json.obj
       [("type", .str "object"),
        ("properties", Json.obj
          [("content", Json.obj
            [("type", .str "array"),
             ("items", Json.obj
               [("type", .str "object"),
                ("properties", Json.obj
                  [("type", Json.obj
                    [("type", .str "string"),
                     ("description", .str "Type of content (text)")]),
                   ("text", Json.obj
                    [("type", .str "string"),
                     ("description", .str "Status message about the analysis being appended")])])])])])])]

/-- The tools/list result (handleToolsList, src/ocr.ts lines 989-1073). -/
def toolsListResult : Json :=
  Json.obj [("tools", Json.arr [toolsListOcrJson, toolsListAppendJson])]

/-- One line of stdin after JSON.parse: either the parse threw (with the
thrown message) or it produced a JSON value. -/
inductive LineInput
  | parseFail (errMsg : String)
  | msg (j : Json)

/-- Whole-process state: the conversation state plus the stored client info
(src/ocr.ts line 190). -/
structure SrvState where
  conv : ConvState
  clientInfo : Option Json

/-- Convert the parsed id field to an RId; an absent or non-primitive id is
treated as null (the claims exercise numeric and string ids). -/
def ridOf : Option Json → RId
  | some (.num n) => .num n
  | some (.str s) => .str s
  | _ => .null

/-- Embeds handleNotification (src/ocr.ts lines 935-984) for the methods
other than llm_response: initialized, exit and unknown notifications only
log.  (For notifications/llm_response the line handler at 1233-1236 calls
logLlmResponse and returns before reaching handleNotification, so the
duplicate append path inside handleNotification is dead for that method.) -/
def handleOtherNotification (s : SrvState) : SrvState := s

/-- The message produced when request.method is absent or not a string:
method.startsWith throws a TypeError, caught by the line handler (Node's
exact TypeError text is not modelled; no claim depends on it). -/
def methodTypeErrMsg : String := "Cannot read properties of undefined (reading startsWith)"

/-- Embeds the line handler of main (src/ocr.ts lines 1220-1273): parse
failure or any synchronous throw is answered by sendError(null, -32700, ...);
notifications produce no reply; callTool and tools/call first store a truthy
string image_path from the raw params into the conversation state, then
dispatch; unknown methods give -32601. -/
def processLine (env : Env) (fs : FileMap) (s : SrvState) (inp : LineInput) :
    FileMap × SrvState × List Reply :=
  match inp with
  | .parseFail m =>
    (fs, s, [mkError .null (-32700) ("Parse error or internal error: " ++ m)])
  | .msg j =>
    match jGet j "method" with
    | some (.str m) =>
      let id := ridOf (jGet j "id")
      let paramsO := jGet j "params"
      if strStarts "notifications/" m then
        if m = "notifications/llm_response" then
          let (c', fs') := logLlmResponse env fs s.conv paramsO
          (fs', { s with conv := c' }, [])
        else (fs, handleOtherNotification s, [])
      else if m = "initialize" then
        let ci := if jTruthyO (jGetO paramsO "clientInfo")
          then jGetO paramsO "clientInfo" else s.clientInfo
        (fs, { s with clientInfo := ci }, [Reply.success id (initializeResult ci)])
      else if m = "ListOfferings" then
        (fs, s, [Reply.success id (listOfferingsResult s.clientInfo)])
      else if m = "callTool" then
        let conv1 :=
          match jGetO (jGetO paramsO "arguments") "image_path" with
          | some (.str ip) =>
            if ip != "" then { s.conv with lastImagePath := some ip } else s.conv
          | _ => s.conv
        let (rs, fs', conv2) := handleCallTool env fs conv1 id paramsO
        (fs', { s with conv := conv2 }, rs)
      else if m = "tools/list" then
        (fs, s, [Reply.success id toolsListResult])
      else if m = "tools/call" then
        let conv1 :=
          match jGetO paramsO "image_path" with
          | some (.str ip) =>
            if ip != "" then { s.conv with lastImagePath := some ip } else s.conv
          | _ => s.conv
        let (rs, fs', conv2) := handleToolsCall env fs conv1 id paramsO
        (fs', { s with conv := conv2 }, rs)
      else
        (fs, s, [mkError id (-32601) ("Method not supported: " ++ m)])
    | _ =>
      (fs, s, [mkError .null (-32700) ("Parse error or internal error: " ++ methodTypeErrMsg)])

/-- The dispatcher loop: lines are read and handled in arrival order and a
failure on one line never stops the processing of the following lines.
(Handler interleaving at await points is not modelled; each line's handler is
run to completion, the sequential view of the single-threaded event loop.) -/
def processLines (env : Env) : FileMap → SrvState → List LineInput →
    FileMap × SrvState × List Reply
  | fs, s, [] => (fs, s, [])
  | fs, s, l :: rest =>
    let (fs1, s1, rs) := processLine env fs s l
    let (fs2, s2, rs') := processLines env fs1 s1 rest
    (fs2, s2, rs ++ rs')

/- ===================================================================
   Reply classifiers used by the theorem statements.
   =================================================================== -/

/-- The error code of a reply, none for success replies. -/
def replyCode : Reply → Option Int
  | .error _ c _ => some c
  | .success _ _ => none

/-- The id a reply carries. -/
def replyId : Reply → RId
  | .error i _ _ => i
  | .success i _ => i

/-- Is the reply a successful (result-carrying) JSON-RPC reply? -/
def replyIsSuccess : Reply → Bool
  | .success _ _ => true
  | .error _ _ _ => false

/-- Does a successful reply's payload carry isError set truthy? -/
def replySoftIsError : Reply → Bool
  | .success _ j => jTruthyO (jGet j "isError")
  | .error _ _ _ => false

/-- The text of the first content block of a successful reply's payload. -/
def replyFirstText (r : Reply) : Option String :=
  match r with
  | .success _ j =>
    match jGet j "content" with
    | some (.arr (first :: _)) =>
      match jGet first "text" with
      | some (.str t) => some t
      | _ => none
    | _ => none
  | .error _ _ _ => none

/- ===================================================================
   Concrete fixtures for witnesses and counterexamples.
   =================================================================== -/

/-- Metadata of an absent path. -/
def absentStat : FileInfo :=
  { present := false, isFile := false, size := 0, readProbeOk := false,
    readFullOk := false, readErr := "ENOENT" }

/-- Metadata of a small readable image file. -/
def smallStat : FileInfo :=
  { present := true, isFile := true, size := 1000, readProbeOk := true,
    readFullOk := true, readErr := "" }

/-- A quiet environment: no files on disk, writes succeed, empty directories,
an idle remote, a fixed clock, a valid API key. -/
def plainEnv : Env :=
  { cwd := "/w", stat := fun _ => absentStat, writeFails := fun _ => none,
    dirList := fun _ => [], remote := .respParseFail "idle",
    nowIso := "2026-10-11T00:00:00.000Z", apiKeyOk := true }

/-- The empty filesystem. -/
def emptyFs : FileMap := fun _ => none

/-- The initial server state. -/
def srv0 : SrvState := { conv := {}, clientInfo := none }

/-- The C2 append_analysis params shape:
{name: "append_analysis", arguments: {text_file_path: "x.txt", analysis: "note"}}. -/
def c2AppendShape : Json :=
  Json.obj [("name", .str "append_analysis"),
            ("arguments", Json.obj [("text_file_path", .str "x.txt"),
                                    ("analysis", .str "note")])]

/-- The callTool request of the C8 counterexample: a tool call whose
image path does not exist on disk. -/
def c8Line : LineInput :=
  .msg (Json.obj
    [("id", .num 3), ("method", .str "callTool"),
     ("params", Json.obj [("name", .str "extract_text_from_image"),
                          ("arguments", Json.obj [("image_path", .str "/img/a.jpg")])])])

/-- The unsorted directory listing of the C7 counterexample: the entry
b-2.txt is returned before b-1.txt, as fs.readdirSync may do (its order is
the operating system's, not sorted). -/
def c7Env : Env :=
  { plainEnv with dirList := fun d => if d = "/img" then ["b-2.txt", "b-1.txt"] else [] }

/-- The two matching text files of the C7 counterexample. -/
def c7Fs : FileMap :=
  fun q => if q = "/img/b-1.txt" then some "ONE"
    else if q = "/img/b-2.txt" then some "TWO" else none

/-- The correlation state of the C7 counterexample. -/
def c7St : ConvState := { lastImagePath := some "/img/b.jpg" }

/-- Is the character a lowercase hex digit? -/
def isHexChar (c : Char) : Bool := ("0123456789abcdef".data).contains c


/- ===================================================================
   Claim theorems.
   =================================================================== -/

/-- C5: for every append_analysis invocation, a missing target file yields a
file-not-found soft error leaving the filesystem untouched; an existing
target without the .txt suffix yields the format soft error, also leaving the
filesystem untouched; otherwise exactly one section — the separator line, the
bracketed ISO-8601 timestamp supplied by the clock, the analysis text and a
trailing newline — is appended to the target (only the target changes) and a
single status content block naming the file is returned; and a repeated call
appends a second, identical-shaped section without deduplication. -/
theorem c5_append_behaviour (env env' : Env) (fs : FileMap) (p analysis analysis' : String) :
    (fs p = none →
      handleAppendAnalysis env fs (some p) analysis =
        (softError ("Text file not found: " ++ p), fs)) ∧
    (∀ old, fs p = some old → strEnds ".txt" p = false →
      handleAppendAnalysis env fs (some p) analysis =
        (softError "File must be a .txt file", fs)) ∧
    (∀ old, fs p = some old → strEnds ".txt" p = true → env.writeFails p = none →
      handleAppendAnalysis env fs (some p) analysis =
        ({ content := [mkContent ("Analysis has been appended to: " ++ p)] },
         fsWrite fs p (old ++ analysisSection env.nowIso analysis)) ∧
      (∀ q, q ≠ p → (handleAppendAnalysis env fs (some p) analysis).2 q = fs q) ∧
      (env'.writeFails p = none →
        (handleAppendAnalysis env' (handleAppendAnalysis env fs (some p) analysis).2
            (some p) analysis').2 p =
          some (old ++ analysisSection env.nowIso analysis ++
                analysisSection env'.nowIso analysis'))) := by
  refine ⟨fun h0 => ?_, fun old h0 h1 => ?_, fun old h0 h1 h2 => ⟨?_, fun q hq => ?_, fun h3 => ?_⟩⟩
  · simp [handleAppendAnalysis, h0]
  · simp [handleAppendAnalysis, h0, h1]
  · simp [handleAppendAnalysis, h0, h1, h2]
  · simp [handleAppendAnalysis, h0, h1, h2, fsWrite, hq]
  · simp [handleAppendAnalysis, h0, h1, h2, h3, fsWrite]

/-- Witness for C5 at a concrete filesystem: a present .txt file gets the
section appended, and a missing file yields the not-found soft error. -/
theorem c5_append_behaviour_witness :
    handleAppendAnalysis plainEnv (fsWrite emptyFs "/t/a.txt" "OLD") (some "/t/a.txt") "note" =
      ({ content := [mkContent "Analysis has been appended to: /t/a.txt"] },
       fsWrite (fsWrite emptyFs "/t/a.txt" "OLD") "/t/a.txt"
         ("OLD" ++ analysisSection plainEnv.nowIso "note")) ∧
    handleAppendAnalysis plainEnv emptyFs (some "/t/b.txt") "note" =
      (softError "Text file not found: /t/b.txt", emptyFs) :=
  ⟨((c5_append_behaviour plainEnv plainEnv (fsWrite emptyFs "/t/a.txt" "OLD")
      "/t/a.txt" "note" "note").2.2 "OLD" (by decide) (by decide) rfl).1,
   (c5_append_behaviour plainEnv plainEnv emptyFs "/t/b.txt" "note" "note").1 rfl⟩

/-- C6: when the requested image resolves to a regular file whose size
exceeds 5 MiB (maxFileSize = 5 * 1024 * 1024 bytes), the pipeline stops with
the File too large soft error, leaves the filesystem and conversation state
untouched and never reaches the remote call (remoteCalled = false). -/
theorem c6_too_large_before_remote (env : Env) (fs : FileMap) (st : ConvState)
    (a : Json) (ip : String)
    (hkey : env.apiKeyOk = true)
    (hip : jGet a "image_path" = some (.str ip))
    (hne : ip ≠ "")
    (hpres : (env.stat (pathResolve env.cwd ip)).present = true)
    (hfile : (env.stat (pathResolve env.cwd ip)).isFile = true)
    (hsize : maxFileSize < (env.stat (pathResolve env.cwd ip)).size) :
    extractTextFromImage env fs st (some a) =
      { outcome := .inl (softError ("File stats error: File too large: " ++
          renderMB (env.stat (pathResolve env.cwd ip)).size ++ "MB (max: 5MB)")),
        fs := fs, st := st, remoteCalled := false } := by
  have hv : validateImage env (some a) =
      .inl ("File stats error: File too large: " ++
        renderMB (env.stat (pathResolve env.cwd ip)).size ++ "MB (max: 5MB)") := by
    cases a with
    | obj fields =>
      simp_all [validateImage, hkey, jTruthyO, jGetO, jGet, jTruthy,
        hne, hpres, hfile, hsize]
    | null => simp [jGet] at hip
    | bool b => simp [jGet] at hip
    | num n => simp [jGet] at hip
    | str s => simp [jGet] at hip
    | arr xs => simp [jGet] at hip
  simp [extractTextFromImage, hv]

/-- Witness for C6 at a 6 MiB file: the extraction fails softly with the
File too large message and no remote call. -/
theorem c6_too_large_before_remote_witness :
    extractTextFromImage
      { plainEnv with stat := fun _ => { smallStat with size := 6291456 } }
      emptyFs {} (some (Json.obj [("image_path", Json.str "/img/big.jpg")])) =
      { outcome := .inl (softError ("File stats error: File too large: " ++
          renderMB 6291456 ++ "MB (max: 5MB)")),
        fs := emptyFs, st := {}, remoteCalled := false } :=
  c6_too_large_before_remote _ emptyFs {} _ "/img/big.jpg" rfl rfl
    (by decide) (by decide) (by decide) (by decide)

/-- C4 counterexample: the dispatcher answers a line that fails to parse with
exactly one reply of code -32700, but sendError's id substitution
(id || 'error') turns the null id into the string "error", so the reply's id
field is the string "error" and not null as the claim states. -/
theorem c4_counterexample :
    ((processLine plainEnv emptyFs srv0 (.parseFail "Unexpected token")).2.2.map replyCode
       = [some (-32700)]) ∧
    ((processLine plainEnv emptyFs srv0 (.parseFail "Unexpected token")).2.2.map replyId
       = [RId.str "error"]) ∧
    RId.str "error" ≠ RId.null := by
  refine ⟨rfl, rfl, by decide⟩

/-- C4 amended: for every input line that fails to parse as JSON-RPC, the
dispatcher emits exactly one error reply with code -32700 whose id field is
the string "error" (the null id passed to sendError is replaced by
id || 'error'), and continues reading: processing a stream that starts with
the failing line equals the one error reply followed by the processing of the
remaining lines from the unchanged state. -/
theorem c4_parse_failure_continues (env : Env) (fs : FileMap) (s : SrvState)
    (m : String) (rest : List LineInput) :
    processLine env fs s (.parseFail m) =
      (fs, s, [Reply.error (.str "error") (-32700) ("Parse error or internal error: " ++ m)]) ∧
    processLines env fs s (.parseFail m :: rest) =
      ((processLines env fs s rest).1, (processLines env fs s rest).2.1,
        Reply.error (.str "error") (-32700) ("Parse error or internal error: " ++ m)
          :: (processLines env fs s rest).2.2) := by
  constructor
  · simp [processLine, mkError, sendErrorId, idFalsy]
  · simp [processLines, processLine, mkError, sendErrorId, idFalsy]

/-- C2 counterexample: under tools/call the append_analysis shape does not
resolve to the append_analysis tool with its arguments.  The normalizer's
fifth rule fires but only looks for an image path, so the resolved image-path
slot stays undefined and handleToolsCall answers with the invalid-params
error -32602 instead of invoking the tool. -/
theorem c2_counterexample :
    normalizeToolsCall c2AppendShape = (some (.str "append_analysis"), none) ∧
    (handleToolsCall plainEnv emptyFs {} (.num 1) (some c2AppendShape)).1.map replyCode
      = [some (-32602)] := by
  exact ⟨rfl, rfl⟩

/-- C2 amended: the tools/call normalizer applies its shape rules in source
order with first match winning.  A bare string resolves to the extraction
tool with the string as the image path, and handleToolsCall then invokes the
extraction tool on arguments {image_path: that string}, wrapping whatever
result it resolves with.  The append_analysis shape resolves its name but no
image path, so handleToolsCall answers -32602 (invalid params) without
invoking any tool or touching the filesystem or state.  An unrecognized
shape such as {foo: 1} resolves neither slot and is answered with the
invalid-params error -32602 naming the shape via JSON.stringify. -/
theorem c2_normalizer_shapes (env : Env) (fs : FileMap) (st : ConvState) (id : RId) :
    normalizeToolsCall (.str "photo.jpg") =
      (some (.str "extract_text_from_image"), some (.str "photo.jpg")) ∧
    (∀ result,
      (extractTextFromImage env fs st (some (Json.obj [("image_path", .str "photo.jpg")]))).outcome
        = .inl result →
      (handleToolsCall env fs st id (some (.str "photo.jpg"))).1
        = [Reply.success id (toolResultJson result)]) ∧
    handleToolsCall env fs st id (some c2AppendShape) =
      ([mkError id (-32602)
         "Invalid params: Please provide a path to a local image file as a simple string parameter"],
       fs, st) ∧
    handleToolsCall env fs st id (some (Json.obj [("foo", .num 1)])) =
      ([mkError id (-32602)
         ("Invalid params: tool name could not be determined from params: "
           ++ jsonStringify (Json.obj [("foo", .num 1)]))],
       fs, st) := by
  refine ⟨rfl, fun result h => ?_, ?_, ?_⟩
  · simp [handleToolsCall, normalizeToolsCall, jGet, jTruthy, jTruthyO, jGetO, h]
  · simp [handleToolsCall, normalizeToolsCall, c2AppendShape, jGet, jTruthy,
      jTruthyO, jGetO, jIsStr, List.lookup]
  · simp [handleToolsCall, normalizeToolsCall, jGet, jTruthy, jTruthyO, jGetO,
      jIsStr, List.lookup]

/-- Witness for C2 amended: with an idle environment the bare string
"photo.jpg" leads to the extraction tool's soft file-not-found result being
sent as a successful reply. -/
theorem c2_normalizer_shapes_witness :
    (handleToolsCall plainEnv emptyFs {} (.num 1) (some (.str "photo.jpg"))).1
      = [Reply.success (.num 1) (toolResultJson
          (softError "File access error: File not found at path: /w/photo.jpg"))] :=
  (c2_normalizer_shapes plainEnv emptyFs {} (.num 1)).2.1
    (softError "File access error: File not found at path: /w/photo.jpg") rfl

/-- Every extraction run falls in one of two phases: either it stopped before
the remote call (remoteCalled false) with a soft error result and untouched
filesystem and state, or it reached the remote call, in which case a
transport failure, an unparsable reply or a service-reported error reject the
returned (un-awaited) Promise with the corresponding message, while a
successful reply always resolves with a result that does not carry the
isError flag (even when saving failed). -/
theorem extract_phase_shape (env : Env) (fs : FileMap) (st : ConvState)
    (args : Option Json) :
    ((extractTextFromImage env fs st args).remoteCalled = false ∧
      (∃ m, (extractTextFromImage env fs st args).outcome = .inl (softError m)) ∧
      (extractTextFromImage env fs st args).fs = fs ∧
      (extractTextFromImage env fs st args).st = st) ∨
    ((extractTextFromImage env fs st args).remoteCalled = true ∧
      ((∃ c e, env.remote = .transportFail c e ∧
        (extractTextFromImage env fs st args).outcome =
          .inr ("curl process exited with code " ++ toString c ++ ": " ++ e) ∧
        (extractTextFromImage env fs st args).fs = fs ∧
        (extractTextFromImage env fs st args).st = st) ∨
       (∃ m, env.remote = .respParseFail m ∧
        (extractTextFromImage env fs st args).outcome =
          .inr ("Failed to parse OpenAI response: " ++ m) ∧
        (extractTextFromImage env fs st args).fs = fs ∧
        (extractTextFromImage env fs st args).st = st) ∨
       (∃ m, env.remote = .apiError m ∧
        (extractTextFromImage env fs st args).outcome =
          .inr ("OpenAI API error: " ++ m) ∧
        (extractTextFromImage env fs st args).fs = fs ∧
        (extractTextFromImage env fs st args).st = st) ∨
       (∃ co res, env.remote = .success co ∧
        (extractTextFromImage env fs st args).outcome = .inl res ∧
        res.isError = false))) := by
  cases hval : validateImage env args with
  | inl m =>
    refine Or.inl ⟨?_, ⟨m, ?_⟩, ?_, ?_⟩ <;> simp [extractTextFromImage, hval]
  | inr p =>
    have he : extractTextFromImage env fs st args = remotePhase env fs st p := by
      simp [extractTextFromImage, hval]
    rw [he]
    cases hr : env.remote with
    | transportFail c e =>
      exact Or.inr ⟨by simp [remotePhase, hr],
        Or.inl ⟨c, e, rfl, by simp [remotePhase, hr], by simp [remotePhase, hr],
          by simp [remotePhase, hr]⟩⟩
    | respParseFail m =>
      exact Or.inr ⟨by simp [remotePhase, hr],
        Or.inr (Or.inl ⟨m, rfl, by simp [remotePhase, hr], by simp [remotePhase, hr],
          by simp [remotePhase, hr]⟩)⟩
    | apiError m =>
      exact Or.inr ⟨by simp [remotePhase, hr],
        Or.inr (Or.inr (Or.inl ⟨m, rfl, by simp [remotePhase, hr], by simp [remotePhase, hr],
          by simp [remotePhase, hr]⟩))⟩
    | success co =>
      refine Or.inr ⟨by cases hsave : saveExtractedText env fs p (extractedOf (completionText co)) <;>
          simp [remotePhase, hr, hsave], Or.inr (Or.inr (Or.inr ?_))⟩
      cases hsave : saveExtractedText env fs p (extractedOf (completionText co)) with
      | inl pr =>
        exact ⟨co, { content := [mkContent (extractedOf (completionText co)),
            mkContent ("\n\nText has been saved to: " ++ pr.1)] },
          rfl, by simp [remotePhase, hr, hsave], rfl⟩
      | inr m =>
        exact ⟨co, { content := [mkContent (extractedOf (completionText co)),
            mkContent ("\n\nWarning: Failed to save text file: " ++ m)] },
          rfl, by simp [remotePhase, hr, hsave], rfl⟩

/-- C1 counterexample: a curl transport failure (exit code 7) during an
extract_text_from_image call is not converted into an isError result; the
rejected Promise escapes the tool (the source returns the Promise without
awaiting it inside the try) and handleCallTool answers with the
protocol-level error reply code -32000, which the claim says never happens. -/
theorem c1_counterexample :
    ((handleCallTool
        { plainEnv with stat := fun _ => smallStat, remote := .transportFail 7 "boom" }
        emptyFs {} (.num 3)
        (some (Json.obj [("name", .str "extract_text_from_image"),
                         ("arguments", Json.obj [("image_path", .str "/img/a.jpg")])]))).1.map
      replyCode) = [some (-32000)] := rfl

/-- C1 amended: failures of the extract_text_from_image pipeline up to the
remote call (missing file, not a regular file, oversized file, disallowed
extension, unreadable file — everything with remoteCalled false) are caught
inside the tool and sent as a successful JSON-RPC reply whose payload is a
soft error (isError true); but once the remote call is made, a transport
failure or a service-reported error rejects the un-awaited Promise and
handleCallTool converts the rejection into a protocol-level error reply with
code -32000, while a successful remote reply (even with a failing save)
resolves without the isError flag. -/
theorem c1_error_channels (env : Env) (fs : FileMap) (st : ConvState) (id : RId)
    (p a : Json)
    (hname : jGet p "name" = some (.str "extract_text_from_image"))
    (hargs : jGet p "arguments" = some a) :
    (∀ res, (extractTextFromImage env fs st (some a)).outcome = .inl res →
      (handleCallTool env fs st id (some p)).1 = [Reply.success id (toolResultJson res)]) ∧
    (∀ msg, (extractTextFromImage env fs st (some a)).outcome = .inr msg →
      (handleCallTool env fs st id (some p)).1 =
        [mkError id (-32000) ("Error executing tool: " ++ msg)]) ∧
    ((extractTextFromImage env fs st (some a)).remoteCalled = false →
      ∃ m, (extractTextFromImage env fs st (some a)).outcome = .inl (softError m)) ∧
    (∀ c e, env.remote = .transportFail c e →
      (extractTextFromImage env fs st (some a)).remoteCalled = true →
      (extractTextFromImage env fs st (some a)).outcome =
        .inr ("curl process exited with code " ++ toString c ++ ": " ++ e)) ∧
    (∀ m, env.remote = .apiError m →
      (extractTextFromImage env fs st (some a)).remoteCalled = true →
      (extractTextFromImage env fs st (some a)).outcome =
        .inr ("OpenAI API error: " ++ m)) ∧
    (∀ co res, env.remote = .success co →
      (extractTextFromImage env fs st (some a)).outcome = .inl res →
      (extractTextFromImage env fs st (some a)).remoteCalled = true →
      res.isError = false) := by
  have hp : ∃ fields, p = Json.obj fields := by
    cases p <;> simp_all [jGet]
  obtain ⟨fields, rfl⟩ := hp
  have hshape := extract_phase_shape env fs st (some a)
  refine ⟨fun res h => ?_, fun msg h => ?_, fun h => ?_, fun c e hr h => ?_,
    fun m hr h => ?_, fun co res hr h hrem => ?_⟩
  · simp [handleCallTool, jTruthyO, jTruthy, jGetO, jGet] at hname hargs ⊢
    simp [hname, hargs, h]
  · simp [handleCallTool, jTruthyO, jTruthy, jGetO, jGet] at hname hargs ⊢
    simp [hname, hargs, h]
  · rcases hshape with ⟨_, hm, _⟩ | ⟨hc, _⟩
    · exact hm
    · rw [h] at hc; exact absurd hc (by simp)
  · rcases hshape with ⟨hc, _⟩ | ⟨_, hcase⟩
    · rw [h] at hc; exact absurd hc (by simp)
    · rcases hcase with ⟨c', e', hr', ho⟩ | ⟨m', hr', _⟩ | ⟨m', hr', _⟩ | ⟨co', res', hr', _⟩ <;>
        rw [hr] at hr' <;> first
        | (cases hr'; exact ho.1)
        | exact absurd hr' (by simp)

  · rcases hshape with ⟨hc, _⟩ | ⟨_, hcase⟩
    · rw [h] at hc; exact absurd hc (by simp)
    · rcases hcase with ⟨c', e', hr', _⟩ | ⟨m', hr', _⟩ | ⟨m', hr', ho⟩ | ⟨co', res', hr', _⟩ <;>
        rw [hr] at hr' <;> first
        | (cases hr'; exact ho.1)
        | exact absurd hr' (by simp)
  · rcases hshape with ⟨hc, _⟩ | ⟨_, hcase⟩
    · rw [hrem] at hc; exact absurd hc (by simp)
    · rcases hcase with ⟨c', e', hr', ho⟩ | ⟨m', hr', ho⟩ | ⟨m', hr', ho⟩ | ⟨co', res', hr', ho, hie⟩ <;>
        rw [hr] at hr'
      · exact absurd hr' (by simp)
      · exact absurd hr' (by simp)
      · exact absurd hr' (by simp)
      · rw [h] at ho; cases ho; exact hie

/-- Witness for C1 amended: the transport-failure rejection surfaces as the
-32000 protocol error reply for a concrete request. -/
theorem c1_error_channels_witness :
    (handleCallTool
        { plainEnv with stat := fun _ => smallStat, remote := .transportFail 7 "boom" }
        emptyFs {} (.num 3)
        (some (Json.obj [("name", .str "extract_text_from_image"),
                         ("arguments", Json.obj [("image_path", .str "/img/a.jpg")])]))).1 =
      [mkError (.num 3) (-32000)
        ("Error executing tool: curl process exited with code 7: boom")] :=
  (c1_error_channels
      { plainEnv with stat := fun _ => smallStat, remote := .transportFail 7 "boom" }
      emptyFs {} (.num 3)
      (Json.obj [("name", .str "extract_text_from_image"),
                 ("arguments", Json.obj [("image_path", .str "/img/a.jpg")])])
      (Json.obj [("image_path", .str "/img/a.jpg")]) rfl rfl).2.1 _ rfl

/-- On the success path the conversation state records the extracted text and
the resolved image path (src/ocr.ts lines 760-762), whichever way the save
goes. -/
theorem extract_success_state (env : Env) (fs : FileMap) (st : ConvState)
    (a : Json) (imagePath : String) (co : Option String)
    (hval : validateImage env (some a) = .inr imagePath)
    (hr : env.remote = .success co) :
    (extractTextFromImage env fs st (some a)).st =
      { st with lastOcrResult := some (extractedOf (completionText co)),
                lastImagePath := some imagePath } := by
  simp only [extractTextFromImage, hval]
  cases hsave : saveExtractedText env fs imagePath (extractedOf (completionText co)) with
  | inl pr => simp [remotePhase, hr, hsave]
  | inr m => simp [remotePhase, hr, hsave]

/-- C8 counterexample: an extraction request that fails at path validation
(the file does not exist, the reply is the soft error) nevertheless changes
the correlation state: the dispatcher stores the raw image_path into
lastImagePath before validation runs (src/ocr.ts lines 1250-1252), so the
state is not left unchanged as the claim states. -/
theorem c8_counterexample :
    (processLine plainEnv emptyFs srv0 c8Line).2.1.conv.lastImagePath = some "/img/a.jpg" ∧
    srv0.conv.lastImagePath = none ∧
    (processLine plainEnv emptyFs srv0 c8Line).2.2.map replySoftIsError = [true] := by
  refine ⟨rfl, rfl, rfl⟩

/-- C8 amended: every successful extraction records the resolved image path
and the extracted text in the correlation state; an extraction failure
inside the tool (soft error or rejection) leaves the tool-level state
untouched; but for callTool requests the dispatcher writes the raw
arguments.image_path into lastImagePath before the tool runs, so a request
failing at path validation still changes lastImagePath (while lastOcrResult
is unchanged) and is answered with the soft error reply. -/
theorem c8_correlation_state (env : Env) (fs : FileMap) (s : SrvState)
    (idj a : Json) (ip m : String) :
    (∀ imagePath co, validateImage env (some a) = .inr imagePath →
      env.remote = .success co →
      (extractTextFromImage env fs s.conv (some a)).st =
        { s.conv with lastOcrResult := some (extractedOf (completionText co)),
                      lastImagePath := some imagePath }) ∧
    (∀ res, (extractTextFromImage env fs s.conv (some a)).outcome = .inl res →
      res.isError = true →
      (extractTextFromImage env fs s.conv (some a)).st = s.conv) ∧
    (∀ msg, (extractTextFromImage env fs s.conv (some a)).outcome = .inr msg →
      (extractTextFromImage env fs s.conv (some a)).st = s.conv) ∧
    (jGet a "image_path" = some (.str ip) → ip ≠ "" →
      validateImage env (some a) = .inl m →
      (processLine env fs s (.msg (Json.obj
        [("id", idj), ("method", .str "callTool"),
         ("params", Json.obj [("name", .str "extract_text_from_image"),
                              ("arguments", a)])]))).2.1.conv.lastImagePath = some ip ∧
      (processLine env fs s (.msg (Json.obj
        [("id", idj), ("method", .str "callTool"),
         ("params", Json.obj [("name", .str "extract_text_from_image"),
                              ("arguments", a)])]))).2.1.conv.lastOcrResult
        = s.conv.lastOcrResult ∧
      (processLine env fs s (.msg (Json.obj
        [("id", idj), ("method", .str "callTool"),
         ("params", Json.obj [("name", .str "extract_text_from_image"),
                              ("arguments", a)])]))).2.2.map replySoftIsError = [true]) := by
  have hshape := extract_phase_shape env fs s.conv (some a)
  refine ⟨fun imagePath co hval hr => extract_success_state env fs s.conv a imagePath co hval hr,
    fun res h hie => ?_, fun msg h => ?_, fun hip hne hfail => ?_⟩
  · rcases hshape with ⟨_, ⟨m', hm⟩, _, hst⟩ | ⟨_, hcase⟩
    · exact hst
    · rcases hcase with ⟨c', e', _, ho, _⟩ | ⟨m', _, ho, _⟩ | ⟨m', _, ho, _⟩ |
        ⟨co', res', _, ho, hie'⟩
      · rw [h] at ho; cases ho
      · rw [h] at ho; cases ho
      · rw [h] at ho; cases ho
      · rw [h] at ho; cases ho; rw [hie] at hie'; cases hie'
  · rcases hshape with ⟨_, ⟨m', hm⟩, _, hst⟩ | ⟨_, hcase⟩
    · rw [h] at hm; cases hm
    · rcases hcase with ⟨c', e', _, ho, _, hst⟩ | ⟨m', _, ho, _, hst⟩ |
        ⟨m', _, ho, _, hst⟩ | ⟨co', res', _, ho, _⟩
      · exact hst
      · exact hst
      · exact hst
      · rw [h] at ho; cases ho
  · have hns : strStarts "notifications/" "callTool" = false := by decide
    have hextract : extractTextFromImage env fs
        { lastOcrResult := s.conv.lastOcrResult, lastImagePath := some ip,
          llmResponses := s.conv.llmResponses } (some a) =
        { outcome := .inl (softError m), fs := fs,
          st := { lastOcrResult := s.conv.lastOcrResult, lastImagePath := some ip,
                  llmResponses := s.conv.llmResponses },
          remoteCalled := false } := by
      simp [extractTextFromImage, hfail]
    have ha : ∃ afields, a = Json.obj afields := by
      cases a <;> simp_all [jGet]
    obtain ⟨afields, rfl⟩ := ha
    simp only [jGet] at hip
    refine ⟨?_, ?_, ?_⟩ <;>
      simp [processLine, handleCallTool, jGet, jGetO, jTruthy, jTruthyO,
        List.lookup, hns, hip, hne, hextract, toolResultJson, softError,
        replySoftIsError, mkContent]

/-- Witness for C8 amended: the concrete failing callTool request leaves
lastOcrResult alone but plants the raw image path in lastImagePath. -/
theorem c8_correlation_state_witness :
    (processLine plainEnv emptyFs srv0 c8Line).2.1.conv.lastImagePath = some "/img/a.jpg" ∧
    (processLine plainEnv emptyFs srv0 c8Line).2.1.conv.lastOcrResult = srv0.conv.lastOcrResult ∧
    (processLine plainEnv emptyFs srv0 c8Line).2.2.map replySoftIsError = [true] :=
  (c8_correlation_state plainEnv emptyFs srv0 (.num 3)
    (Json.obj [("image_path", .str "/img/a.jpg")]) "/img/a.jpg"
    "File access error: File not found at path: /img/a.jpg").2.2.2 rfl
    (by decide) rfl

/-- C10: when the remote reply succeeds but the completion content is missing
or empty, the literal "No text extracted" is substituted: it is recorded in
the correlation state, hashed into the output filename, written to the output
file after the fixed header (no other path changes), and returned as the
first content block of the resolved result. -/
theorem c10_no_text_extracted (env : Env) (fs : FileMap) (st : ConvState)
    (a : Json) (imagePath : String) (co : Option String)
    (hval : validateImage env (some a) = .inr imagePath)
    (hr : env.remote = .success co)
    (hco : co = none ∨ co = some "")
    (hw : env.writeFails (savedTxtPath imagePath "No text extracted") = none) :
    (extractTextFromImage env fs st (some a)).st.lastOcrResult = some "No text extracted" ∧
    (extractTextFromImage env fs st (some a)).st.lastImagePath = some imagePath ∧
    (extractTextFromImage env fs st (some a)).fs (savedTxtPath imagePath "No text extracted") =
      some (ocrHeader ++ "No text extracted" ++ "\n") ∧
    (∀ q, q ≠ savedTxtPath imagePath "No text extracted" →
      (extractTextFromImage env fs st (some a)).fs q = fs q) ∧
    (extractTextFromImage env fs st (some a)).outcome = .inl { content :=
      [mkContent "No text extracted",
       mkContent ("\n\nText has been saved to: " ++ savedTxtPath imagePath "No text extracted")] } ∧
    savedTxtPath imagePath "No text extracted" =
      posixJoin (nodeDirname imagePath)
        (baseNameWithoutExt imagePath ++ "-" ++
          generateShortHash "No text extracted" ++ ".txt") := by
  have hc : completionText co = "No text extracted" := by
    rcases hco with rfl | rfl <;> simp [completionText]
  have he : extractedOf "No text extracted" = "No text extracted" := by decide
  have han : analysisOf "No text extracted" = "" := by decide
  refine ⟨?_, ?_, ?_, fun q hq => ?_, ?_, rfl⟩
  · simp [extractTextFromImage, hval, remotePhase, hr, hc, he, han,
      saveExtractedText, hw, fsWrite]
  · simp [extractTextFromImage, hval, remotePhase, hr, hc, he, han,
      saveExtractedText, hw, fsWrite]
  · simp [extractTextFromImage, hval, remotePhase, hr, hc, he, han,
      saveExtractedText, hw, fsWrite]
  · simp [extractTextFromImage, hval, remotePhase, hr, hc, he, han,
      saveExtractedText, hw, fsWrite, hq]
  · simp [extractTextFromImage, hval, remotePhase, hr, hc, he, han,
      saveExtractedText, hw, fsWrite]

/-- Witness for C10 at a concrete environment whose remote reply carries no
content: the substituted literal lands in the state and in the stored file. -/
theorem c10_no_text_extracted_witness :
    (extractTextFromImage { plainEnv with stat := fun _ => smallStat, remote := .success none }
      emptyFs {} (some (Json.obj [("image_path", .str "/img/a.jpg")]))).st.lastOcrResult
      = some "No text extracted" ∧
    (extractTextFromImage { plainEnv with stat := fun _ => smallStat, remote := .success none }
      emptyFs {} (some (Json.obj [("image_path", .str "/img/a.jpg")]))).fs
        (savedTxtPath "/img/a.jpg" "No text extracted")
      = some (ocrHeader ++ "No text extracted" ++ "\n") :=
  ⟨(c10_no_text_extracted { plainEnv with stat := fun _ => smallStat, remote := .success none }
      emptyFs {} (Json.obj [("image_path", .str "/img/a.jpg")]) "/img/a.jpg" none
      rfl rfl (Or.inl rfl) rfl).1,
   (c10_no_text_extracted { plainEnv with stat := fun _ => smallStat, remote := .success none }
      emptyFs {} (Json.obj [("image_path", .str "/img/a.jpg")]) "/img/a.jpg" none
      rfl rfl (Or.inl rfl) rfl).2.2.1⟩

/-- lexLe is reflexive. -/
theorem lexLe_refl (s : String) : lexLe s s = true := by
  simp [lexLe]

/-- The last element of a list that is pairwise ordered by lexLe is an upper
bound of the list. -/
theorem lexLe_getLast? : ∀ (l : List String),
    l.Pairwise (fun x y => lexLe x y = true) →
    ∀ f, l.getLast? = some f → ∀ g, g ∈ l → lexLe g f = true := by
  intro l
  induction l with
  | nil => intro _ f hf; cases hf
  | cons x t ih =>
    intro hp f hf g hg
    rcases List.pairwise_cons.mp hp with ⟨hx, hpt⟩
    cases t with
    | nil =>
      simp only [List.getLast?_singleton, Option.some.injEq] at hf
      rcases List.mem_singleton.mp hg with rfl
      rw [hf]; exact lexLe_refl f
    | cons y u =>
      rw [List.getLast?_cons_cons] at hf
      have hfm : f ∈ y :: u := by
        have := List.getLast?_eq_getLast (y :: u) (by simp)
        rw [this] at hf
        cases hf
        exact List.getLast_mem _
      rcases List.mem_cons.mp hg with rfl | hgt
      · exact hx f hfm
      · exact ih hpt f hf g hgt

/-- C7 counterexample: with the directory listing returned in the order
[b-2.txt, b-1.txt], the handler appends to b-1.txt — the positionally last
entry of the listing — although the lexicographically last match is b-2.txt,
which stays untouched; so the selection is not lexicographic as claimed. -/
theorem c7_counterexample :
    lexLe "b-1.txt" "b-2.txt" = true ∧ ("b-1.txt" : String) ≠ "b-2.txt" ∧
    (logLlmResponse c7Env c7Fs c7St (some (.str "note"))).2 "/img/b-2.txt" = some "TWO" ∧
    (logLlmResponse c7Env c7Fs c7St (some (.str "note"))).2 "/img/b-1.txt" =
      some ("ONE" ++ analysisSection c7Env.nowIso "note") := by
  refine ⟨by decide, by decide, rfl, rfl⟩

/-- C7 amended: on a notifications/llm_response with lastImagePath set, the
handler filters the directory listing to entries with the "{baseName}-"
prefix and ".txt" suffix; if none match nothing is appended (the notification
is only recorded in the state log); if some match, the analysis is appended
to the positionally last match of the listing (and only to it) — which
coincides with the lexicographically last match exactly when the listing is
sorted, as the final conjunct states. -/
theorem c7_append_target (env : Env) (fs : FileMap) (st : ConvState)
    (p : String) (response : Option Json)
    (hlast : st.lastImagePath = some p) :
    (((env.dirList (nodeDirname p)).filter
        (fun f => strStarts (baseNameWithoutExt p ++ "-") f && strEnds ".txt" f)) = [] →
      (logLlmResponse env fs st response).2 = fs ∧
      (logLlmResponse env fs st response).1.llmResponses =
        st.llmResponses ++ [(env.nowIso, jsonStringifyO response)]) ∧
    (∀ f old, ((env.dirList (nodeDirname p)).filter
        (fun f => strStarts (baseNameWithoutExt p ++ "-") f && strEnds ".txt" f)).getLast?
          = some f →
      fs (posixJoin (nodeDirname p) f) = some old →
      env.writeFails (posixJoin (nodeDirname p) f) = none →
      (logLlmResponse env fs st response).2 (posixJoin (nodeDirname p) f) =
        some (old ++ analysisSection env.nowIso (formatLlmResponse response)) ∧
      (∀ q, q ≠ posixJoin (nodeDirname p) f →
        (logLlmResponse env fs st response).2 q = fs q)) ∧
    ((env.dirList (nodeDirname p)).Pairwise (fun x y => lexLe x y = true) →
      ∀ f, ((env.dirList (nodeDirname p)).filter
        (fun f => strStarts (baseNameWithoutExt p ++ "-") f && strEnds ".txt" f)).getLast?
          = some f →
      ∀ g, g ∈ ((env.dirList (nodeDirname p)).filter
        (fun f => strStarts (baseNameWithoutExt p ++ "-") f && strEnds ".txt" f)) →
      lexLe g f = true) := by
  refine ⟨fun hempty => ?_, fun f old hf hold hw => ?_, fun hsorted f hf g hg => ?_⟩
  · constructor <;> simp [logLlmResponse, hlast, hempty]
  · constructor
    · simp [logLlmResponse, hlast, hf, hold, appendLlmResponseToFile, hw,
        fsAppend, fsWrite]
    · intro q hq
      simp [logLlmResponse, hlast, hf, hold, appendLlmResponseToFile, hw,
        fsAppend, fsWrite, hq]
  · exact lexLe_getLast? _ (hsorted.filter _) f hf g hg

/-- Witness for C7 amended: with a sorted listing [b-1.txt, b-2.txt] the
analysis lands on b-2.txt, the lexicographically last match. -/
theorem c7_append_target_witness :
    (logLlmResponse
        { plainEnv with dirList := fun d => if d = "/img" then ["b-1.txt", "b-2.txt"] else [] }
        c7Fs c7St (some (.str "note"))).2 "/img/b-2.txt" =
      some ("TWO" ++ analysisSection plainEnv.nowIso "note") ∧
    lexLe "b-1.txt" "b-2.txt" = true :=
  ⟨((c7_append_target
      { plainEnv with dirList := fun d => if d = "/img" then ["b-1.txt", "b-2.txt"] else [] }
      c7Fs c7St "/img/b.jpg" (some (.str "note")) rfl).2.1 "b-2.txt" "TWO"
      (by decide) (by decide) rfl).1,
   (c7_append_target
      { plainEnv with dirList := fun d => if d = "/img" then ["b-1.txt", "b-2.txt"] else [] }
      c7Fs c7St "/img/b.jpg" (some (.str "note")) rfl).2.2 (by decide) "b-2.txt"
      (by decide) "b-2.txt" (by decide)⟩

/-- The compression step keeps the running hash at eight words. -/
theorem sha256Block_length (hs blk : List Nat) (h : hs.length = 8) :
    (sha256Block hs blk).length = 8 := by
  simp [sha256Block, h8ToList, h]

/-- Folding compression over any block list keeps eight words. -/
theorem sha256_foldl_length (blocks : List (List Nat)) : ∀ hs : List Nat,
    hs.length = 8 →
    (blocks.foldl (fun h blk => sha256Block h (bytesToWords blk)) hs).length = 8 := by
  induction blocks with
  | nil => intro hs h; exact h
  | cons b t ih => intro hs h; exact ih _ (sha256Block_length _ _ h)

/-- The SHA-256 digest always has eight words. -/
theorem sha256Words_length (msg : List Nat) : (sha256Words msg).length = 8 :=
  sha256_foldl_length _ sha256H0 rfl

/-- Each word contributes eight hex characters. -/
theorem flatMap_hexWord32_length : ∀ l : List Nat,
    (l.flatMap hexWord32).length = 8 * l.length := by
  intro l
  induction l with
  | nil => rfl
  | cons x t ih =>
    simp only [List.flatMap_cons, List.length_append, ih, hexWord32,
      List.length_cons, List.length_nil]
    omega

/-- The hex digest of SHA-256 has 64 characters. -/
theorem sha256HexChars_length (msg : List Nat) : (sha256HexChars msg).length = 64 := by
  rw [sha256HexChars, flatMap_hexWord32_length, sha256Words_length]

/-- A value below 16 renders as a lowercase hex digit. -/
theorem hexDigit_isHex : ∀ n < 16, isHexChar (hexDigit n) = true := by decide

/-- Every character of a rendered word is a hex digit. -/
theorem hexWord32_isHex (n : Nat) : ∀ c ∈ hexWord32 n, isHexChar c = true := by
  intro c hc
  simp only [hexWord32, List.mem_cons, List.not_mem_nil, or_false] at hc
  rcases hc with rfl | rfl | rfl | rfl | rfl | rfl | rfl | rfl <;>
    exact hexDigit_isHex _ (Nat.mod_lt _ (by norm_num))

/-- Strings with equal character data are equal. -/
theorem stringDataInj {a b : String} (h : a.data = b.data) : a = b := by
  cases a; cases b; cases h; rfl

/-- The short digest has exactly 8 characters, all lowercase hex. -/
theorem generateShortHash_shape (t : String) :
    strLen (generateShortHash t) = 8 ∧
    ∀ c ∈ (generateShortHash t).data, isHexChar c = true := by
  constructor
  · simp [generateShortHash, strLen, List.length_take, sha256HexChars_length]
  · intro c hc
    simp only [generateShortHash] at hc
    have hc' : c ∈ sha256HexChars (utf8Bytes t) := List.take_subset _ _ hc
    simp only [sha256HexChars, List.mem_flatMap] at hc'
    obtain ⟨w, _, hw⟩ := hc'
    exact hexWord32_isHex w c hw

/-- Two texts give the same output path for the same image exactly when their
short digests agree. -/
theorem savedTxtPath_inj_iff (img t t' : String) :
    savedTxtPath img t = savedTxtPath img t' ↔
      generateShortHash t = generateShortHash t' := by
  constructor
  · intro h
    have hd : (baseNameWithoutExt img).data ++
          (['-'] ++ ((generateShortHash t).data ++ ['.', 't', 'x', 't'])) =
        (baseNameWithoutExt img).data ++
          (['-'] ++ ((generateShortHash t').data ++ ['.', 't', 'x', 't'])) := by
      unfold savedTxtPath posixJoin at h
      have hdata := congrArg String.data h
      split at hdata <;> try (split at hdata) <;> try (split at hdata)
      all_goals
        simp only [String.data_append, List.append_assoc] at hdata
      · exact hdata
      · exact hdata
      · exact List.append_cancel_left hdata
      · exact List.append_cancel_left (List.append_cancel_left hdata)
    have h2 := List.append_cancel_left hd
    have h3 := List.append_cancel_left h2
    have h4 := List.append_cancel_right h3
    exact stringDataInj h4
  · intro h
    unfold savedTxtPath
    rw [h]

/-- C3 counterexample: the texts "69235" and "95303" differ but share the
8-hex-character truncation of their SHA-256 digests (c11eb5e6), so they
resolve to the identical output path for the same image — differing text
does not always yield a differing path. -/
theorem c3_counterexample :
    ("69235" : String) ≠ "95303" ∧
    savedTxtPath "/pics/scan.jpg" "69235" = savedTxtPath "/pics/scan.jpg" "95303" := by
  constructor
  · decide
  · decide

/-- C3 amended: the output file path is a pure function of the source image
path and the extracted text only, equal to
{directory-of-image}/{baseName}-{digest}.txt with the digest the 8-hex-char
truncation of the SHA-256 of the text; the store writes the header and text
at that path and changes no other path (old variants are never deleted, and
re-extracting identical text reuses and overwrites the same file); but
differing text yields a differing path exactly when the 8-character digests
differ — the 32-bit truncation admits collisions, as the counterexample
shows. -/
theorem c3_store_path (env : Env) (fs : FileMap) (img t t' : String)
    (hw : env.writeFails (savedTxtPath img t) = none) :
    saveExtractedText env fs img t =
      .inl (savedTxtPath img t, fsWrite fs (savedTxtPath img t) (ocrHeader ++ t ++ "\n")) ∧
    savedTxtPath img t = posixJoin (nodeDirname img)
      (baseNameWithoutExt img ++ "-" ++ generateShortHash t ++ ".txt") ∧
    strLen (generateShortHash t) = 8 ∧
    (∀ c ∈ (generateShortHash t).data, isHexChar c = true) ∧
    (t = t' → savedTxtPath img t = savedTxtPath img t') ∧
    (savedTxtPath img t = savedTxtPath img t' ↔
      generateShortHash t = generateShortHash t') ∧
    (∀ q, q ≠ savedTxtPath img t →
      fsWrite fs (savedTxtPath img t) (ocrHeader ++ t ++ "\n") q = fs q) := by
  refine ⟨?_, rfl, (generateShortHash_shape t).1, (generateShortHash_shape t).2,
    fun h => by rw [h], savedTxtPath_inj_iff img t t', fun q hq => ?_⟩
  · simp [saveExtractedText, hw]
  · simp [fsWrite, hq]

/-- Witness for C3 amended at a concrete store write. -/
theorem c3_store_path_witness :
    saveExtractedText plainEnv emptyFs "/pics/scan.jpg" "hello" =
      .inl (savedTxtPath "/pics/scan.jpg" "hello",
        fsWrite emptyFs (savedTxtPath "/pics/scan.jpg" "hello")
          (ocrHeader ++ "hello" ++ "\n")) ∧
    strLen (generateShortHash "hello") = 8 :=
  ⟨(c3_store_path plainEnv emptyFs "/pics/scan.jpg" "hello" "hello" rfl).1,
   (c3_store_path plainEnv emptyFs "/pics/scan.jpg" "hello" "hello" rfl).2.2.1⟩

/-- consHead never empties a part list. -/
theorem consHead_ne_nil (c : Char) (ps : List (List Char)) : consHead c ps ≠ [] := by
  cases ps <;> simp [consHead]

/-- The split always has a first part. -/
theorem splitParts_ne_nil (l : List Char) : splitParts l ≠ [] := by
  induction l using splitParts.induct with
  | case1 => simp [splitParts]
  | case2 c => simp [splitParts]
  | case3 c1 c2 rest hcond ih =>
    rw [splitParts]; simp [hcond]
  | case4 c1 c2 rest hcond ih =>
    rw [splitParts]; simp only [if_neg hcond]; exact consHead_ne_nil _ _

/-- The split of some text is a cons. -/
theorem splitParts_cons (l : List Char) : ∃ p ps, splitParts l = p :: ps := by
  cases hS : splitParts l with
  | nil => exact absurd hS (splitParts_ne_nil l)
  | cons p ps => exact ⟨p, ps, rfl⟩

/-- Rejoining the parts with the removed two-newline separators restores the
input text: the split loses nothing. -/
theorem joinSep_splitParts (l : List Char) : joinSep (splitParts l) = l := by
  induction l using splitParts.induct with
  | case1 => rfl
  | case2 c => rfl
  | case3 c1 c2 rest hcond ih =>
    obtain ⟨p, ps, hS⟩ := splitParts_cons rest
    rw [splitParts, if_pos hcond, hS]
    rw [hS] at ih
    have hc : c1 = '\n' ∧ c2 = '\n' := by
      simp only [Bool.and_eq_true, beq_iff_eq] at hcond
      exact ⟨hcond.1.1, hcond.1.2⟩
    rw [show joinSep ([] :: p :: ps) = '\n' :: '\n' :: joinSep (p :: ps) from rfl, ih,
      hc.1, hc.2]
  | case4 c1 c2 rest hcond ih =>
    obtain ⟨p, ps, hS⟩ := splitParts_cons (c2 :: rest)
    rw [splitParts, if_neg hcond, hS]
    rw [hS] at ih
    cases ps with
    | nil => simpa [consHead, joinSep] using congrArg (c1 :: ·) ih
    | cons q qs => simpa [consHead, joinSep] using congrArg (c1 :: ·) ih

/-- A text with no blank-line-preceded heading splits into a single part. -/
theorem splitParts_no_boundary (l : List Char) (h : hasBoundary l = false) :
    splitParts l = [l] := by
  induction l using splitParts.induct with
  | case1 => rfl
  | case2 c => rfl
  | case3 c1 c2 rest hcond ih =>
    rw [hasBoundary] at h
    simp [hcond] at h
  | case4 c1 c2 rest hcond ih =>
    rw [hasBoundary] at h
    simp only [Bool.or_eq_false_iff] at h
    rw [splitParts, if_neg hcond, ih h.2, consHead]

/-- The empty text is not a heading. -/
theorem isHeading_nil : isHeading [] = false := by decide

/-- When a boundary exists, the text decomposes as the extracted part, the
two-newline separator, and the analysis part, which starts with a heading. -/
theorem split_boundary_decomp (l : List Char) (h : hasBoundary l = true) :
    l = extractedChars l ++ '\n' :: '\n' :: analysisChars l ∧
    isHeading (analysisChars l) = true := by
  induction l using splitParts.induct with
  | case1 => simp [hasBoundary] at h
  | case2 c => simp [hasBoundary] at h
  | case3 c1 c2 rest hcond ih =>
    obtain ⟨p, ps, hS⟩ := splitParts_cons rest
    have hjoin := joinSep_splitParts rest
    rw [hS] at hjoin
    have hc : c1 = '\n' ∧ c2 = '\n' ∧ isHeading rest = true := by
      simp only [Bool.and_eq_true, beq_iff_eq] at hcond
      exact ⟨hcond.1.1, hcond.1.2, hcond.2⟩
    have hE : extractedChars (c1 :: c2 :: rest) = [] := by
      rw [extractedChars, splitParts, if_pos hcond, hS]; rfl
    have hA : analysisChars (c1 :: c2 :: rest) = rest := by
      rw [analysisChars]
      rw [splitParts, if_pos hcond, hS]
      exact hjoin
    rw [hE, hA, hc.1, hc.2.1]
    exact ⟨rfl, hc.2.2⟩
  | case4 c1 c2 rest hcond ih =>
    have hb : hasBoundary (c2 :: rest) = true := by
      rw [hasBoundary] at h
      rcases Bool.or_eq_true_iff.mp h with hc | hb
      · exact absurd hc hcond
      · exact hb
    obtain ⟨hdecomp, hhead⟩ := ih hb
    obtain ⟨p, ps, hS⟩ := splitParts_cons (c2 :: rest)
    cases ps with
    | nil =>
      rw [analysisChars, hS] at hhead
      rw [isHeading_nil] at hhead
      cases hhead
    | cons q qs =>
      have hE' : extractedChars (c2 :: rest) = p := by rw [extractedChars, hS]; rfl
      have hA' : analysisChars (c2 :: rest) = joinSep (q :: qs) := by
        rw [analysisChars, hS]
      have hE : extractedChars (c1 :: c2 :: rest) = c1 :: p := by
        rw [extractedChars, splitParts, if_neg hcond, hS]; rfl
      have hA : analysisChars (c1 :: c2 :: rest) = joinSep (q :: qs) := by
        rw [analysisChars, splitParts, if_neg hcond, hS]; rfl
      rw [hE, hA]
      rw [hE', hA'] at hdecomp
      constructor
      · rw [List.cons_append]
        exact congrArg (c1 :: ·) hdecomp
      · rw [hA'] at hhead; exact hhead

/-- The split happens at the first blank-line-preceded heading: any other
such decomposition has its cut no earlier than the extracted part's end. -/
theorem split_minimal (l : List Char) : ∀ a b, l = a ++ '\n' :: '\n' :: b →
    isHeading b = true → (extractedChars l).length ≤ a.length := by
  induction l using splitParts.induct with
  | case1 =>
    intro a b h _
    exact absurd h (by cases a <;> simp)
  | case2 c =>
    intro a b h _
    have := congrArg List.length h
    simp at this
    omega
  | case3 c1 c2 rest hcond ih =>
    intro a b h hh
    obtain ⟨p, ps, hS⟩ := splitParts_cons rest
    have hE : extractedChars (c1 :: c2 :: rest) = [] := by
      rw [extractedChars, splitParts, if_pos hcond, hS]; rfl
    rw [hE]
    simp
  | case4 c1 c2 rest hcond ih =>
    intro a b h hh
    obtain ⟨p, ps, hS⟩ := splitParts_cons (c2 :: rest)
    have hE : extractedChars (c1 :: c2 :: rest) = c1 :: p := by
      rw [extractedChars, splitParts, if_neg hcond, hS]; rfl
    cases a with
    | nil =>
      simp only [List.nil_append] at h
      injection h with h1 h2
      injection h2 with h2 h3
      exact absurd (by simp [h1, h2, h3, hh] :
        ((c1 == '\n') && ((c2 == '\n') && isHeading rest)) = true) (by simpa using hcond)
    | cons x a' =>
      simp only [List.cons_append] at h
      injection h with h1 h2
      have hle := ih a' b h2 hh
      have hE' : extractedChars (c2 :: rest) = p := by rw [extractedChars, hS]; rfl
      rw [hE' ] at hle
      rw [hE]
      simpa using Nat.succ_le_succ hle

/-- C9: on a successful remote reply the completion text is split at the
first case-insensitive heading among Analysis:, Interpretation:, Summary:,
Understanding: that is preceded by a blank line (two newlines): the text
before the separator becomes extractedText, everything from the heading
onward becomes analysisText (the text equals extracted ++ two newlines ++
analysis, the analysis starts with a heading, and no such cut exists
earlier); when no blank-line-preceded heading occurs, extractedText is the
whole completion and analysisText is empty. -/
theorem c9_completion_split (full : String) :
    (hasBoundary full.data = false →
      extractedOf full = full ∧ analysisOf full = "") ∧
    (hasBoundary full.data = true →
      full.data = (extractedOf full).data ++ '\n' :: '\n' :: (analysisOf full).data ∧
      isHeading (analysisOf full).data = true ∧
      (∀ a b, full.data = a ++ '\n' :: '\n' :: b → isHeading b = true →
        (extractedOf full).data.length ≤ a.length)) := by
  constructor
  · intro h
    have hS := splitParts_no_boundary full.data h
    constructor
    · apply stringDataInj
      show extractedChars full.data = full.data
      rw [extractedChars, hS]; rfl
    · apply stringDataInj
      show analysisChars full.data = ("" : String).data
      rw [analysisChars, hS]
  · intro h
    have hd := split_boundary_decomp full.data h
    exact ⟨hd.1, hd.2, fun a b hab hh => split_minimal full.data a b hab hh⟩

/-- Witness for C9 at two concrete completions: one without a heading and
one with a blank-line-preceded Analysis heading. -/
theorem c9_completion_split_witness :
    (extractedOf "text" = "text" ∧ analysisOf "text" = "") ∧
    ("a\n\nAnalysis: b" : String).data =
      (extractedOf "a\n\nAnalysis: b").data ++ '\n' :: '\n' ::
        (analysisOf "a\n\nAnalysis: b").data ∧
    isHeading (analysisOf "a\n\nAnalysis: b").data = true :=
  ⟨(c9_completion_split "text").1 (by decide),
   ((c9_completion_split "a\n\nAnalysis: b").2 (by decide)).1,
   ((c9_completion_split "a\n\nAnalysis: b").2 (by decide)).2.1⟩

end OcrMcp
